import Mathlib

/-!
Verification of the collaborative whiteboard service.

This file gives a shallow embedding of the server-side whiteboard service
(src/server/services/whiteboard.ts) and proves or refutes the specified
properties about its command handlers.

Modelling conventions:
- JavaScript Date values are modelled as natural numbers; each handler takes
  the current time as an explicit argument, since the source calls new Date()
  while processing a command.
- A JS object used as a string-keyed record (session.users) and the Map of
  sessions are modelled as association lists with JS semantics: setting an
  existing key replaces the value in place, setting a new key appends,
  deleting removes the (unique) entry.
- TS mutation of an object found by Array.prototype.find is modelled by
  updating the first list element whose id matches, sequentially, so that
  aliasing effects (e.g. find on sourceId and targetId returning the same
  object) are reproduced exactly.
- WebSocket handles are modelled as numbers; outbound traffic is returned
  as an explicit list of outputs (direct sends and broadcasts with their
  exclusion lists) instead of being performed.
-/

namespace Whiteboard

/-- A session-scoped presence record, after interface WhiteboardUser. -/
structure WhiteboardUser where
  id : String
  name : String
  color : String
  cursor : Option (Int × Int)
  isActive : Bool
  lastActive : Nat
deriving DecidableEq

/-- An idea node, after interface IdeaNode. -/
structure IdeaNode where
  id : String
  text : String
  x : Int
  y : Int
  color : String
  connections : List String
  createdBy : String
  createdAt : Nat
  votes : Nat
  isSelected : Bool
deriving DecidableEq

/-- A whiteboard session, after interface WhiteboardSession.  The users
record is an association list of userId to user. -/
structure WhiteboardSession where
  id : String
  name : String
  ideas : List IdeaNode
  users : List (String × WhiteboardUser)
  createdAt : Nat
  lastActive : Nat
deriving DecidableEq

/-- A tracked client connection, after interface ConnectedClient; the ws
handle is a number identifying the socket. -/
structure ConnectedClient where
  ws : Nat
  userId : String
  sessionId : String
deriving DecidableEq

/-- The mutable state of the WhiteboardService: the sessions map and the
clients array. -/
structure ServiceState where
  sessions : List (String × WhiteboardSession)
  clients : List ConnectedClient
deriving DecidableEq

/-- The updates field of an update-idea message: TypeScript type
Partial of IdeaNode, every field optional. -/
structure UpdatePayload where
  id : Option String
  text : Option String
  x : Option Int
  y : Option Int
  color : Option String
  connections : Option (List String)
  createdBy : Option String
  createdAt : Option Nat
  votes : Option Nat
  isSelected : Option Bool
deriving DecidableEq

/-- Outbound event payloads broadcast or sent by the handlers. -/
inductive EventPayload where
  | sessionState (sessionId : String) (state : WhiteboardSession)
  | userJoined (sessionId : String) (user : WhiteboardUser)
  | userLeft (sessionId : String) (userId : String)
  | cursorMoved (sessionId : String) (userId : String) (x y : Int)
  | ideaAdded (sessionId : String) (idea : IdeaNode)
  | ideaDeleted (sessionId : String) (ideaId : String)
  | ideaUpdated (sessionId : String) (ideaId : String) (updates : UpdatePayload)
  | connectionAdded (sessionId : String) (sourceId : String) (targetId : String)
  | connectionRemoved (sessionId : String) (sourceId : String) (targetId : String)
  | ideaVoted (sessionId : String) (ideaId : String) (userId : String) (newVoteCount : Nat)
deriving DecidableEq

/-- An outbound action: a direct send to one socket, or a broadcast to a
session with a list of excluded user ids. -/
inductive Output where
  | directSend (ws : Nat) (event : EventPayload)
  | broadcast (sessionId : String) (event : EventPayload) (excludeUserIds : List String)
deriving DecidableEq

/-- Lookup in a string-keyed record / Map: first entry with the key. -/
def recordGet {α : Type} : List (String × α) → String → Option α
  | [], _ => none
  | p :: rest, k => if p.1 = k then some p.2 else recordGet rest k

/-- Assignment in a string-keyed record / Map.set: replace the value of an
existing key in place, otherwise append the new entry. -/
def recordSet {α : Type} : List (String × α) → String → α → List (String × α)
  | [], k, v => [(k, v)]
  | p :: rest, k, v => if p.1 = k then (k, v) :: rest else p :: recordSet rest k v

/-- The delete operator on a string-keyed record: remove the entry with the
key (keys are unique in a JS object, so removing the first occurrence). -/
def recordDelete {α : Type} : List (String × α) → String → List (String × α)
  | [], _ => []
  | p :: rest, k => if p.1 = k then rest else p :: recordDelete rest k

/-- Mutation of the object returned by ideas.find(idea => idea.id === k):
apply f to the first idea whose id is k, leave everything else alone. -/
def updateFirstIdea : List IdeaNode → String → (IdeaNode → IdeaNode) → List IdeaNode
  | [], _, _ => []
  | i :: rest, k, f => if i.id = k then f i :: rest else i :: updateFirstIdea rest k f

/-- Shallow merge of an update payload over an idea: spread syntax
on an object with a Partial of IdeaNode. -/
def applyUpdates (i : IdeaNode) (u : UpdatePayload) : IdeaNode :=
  { id := u.id.getD i.id
    text := u.text.getD i.text
    x := u.x.getD i.x
    y := u.y.getD i.y
    color := u.color.getD i.color
    connections := u.connections.getD i.connections
    createdBy := u.createdBy.getD i.createdBy
    createdAt := u.createdAt.getD i.createdAt
    votes := u.votes.getD i.votes
    isSelected := u.isSelected.getD i.isSelected }

/-- The sessionClients computation of broadcastToSession: clients of the
session whose userId is not excluded. -/
def broadcastRecipients (clients : List ConnectedClient) (sessionId : String)
    (excludeUserIds : List String) : List ConnectedClient :=
  clients.filter (fun c => c.sessionId == sessionId && !(excludeUserIds.contains c.userId))

/-- WhiteboardService.handleJoin. -/
def handleJoin (st : ServiceState) (ws : Nat) (sessionId : String)
    (user : WhiteboardUser) (now : Nat) : ServiceState × List Output :=
  let session :=
    match recordGet st.sessions sessionId with
    | some s => s
    | none =>
        { id := sessionId, name := "Session " ++ sessionId, ideas := [],
          users := [], createdAt := now, lastActive := now }
  let user' := { user with isActive := true, lastActive := now }
  let session' := { session with users := recordSet session.users user.id user' }
  ({ sessions := recordSet st.sessions sessionId session',
     clients := st.clients ++ [{ ws := ws, userId := user.id, sessionId := sessionId }] },
   [Output.directSend ws (EventPayload.sessionState sessionId session'),
    Output.broadcast sessionId (EventPayload.userJoined sessionId user') [user.id]])

/-- WhiteboardService.handleUserLeave. -/
def handleUserLeave (st : ServiceState) (client : ConnectedClient) :
    ServiceState × List Output :=
  match recordGet st.sessions client.sessionId with
  | none => (st, [])
  | some session =>
      let session' := { session with users := recordDelete session.users client.userId }
      ({ st with sessions := recordSet st.sessions client.sessionId session' },
       [Output.broadcast client.sessionId
          (EventPayload.userLeft client.sessionId client.userId) []])

/-- The leave branch of handleMessage: find the client registered for this
user and session, then run handleUserLeave (the clients array keeps the
entry; only a socket close removes it). -/
def handleLeaveMessage (st : ServiceState) (sessionId userId : String) :
    ServiceState × List Output :=
  match st.clients.find? (fun c => c.userId == userId && c.sessionId == sessionId) with
  | some client => handleUserLeave st client
  | none => (st, [])

/-- The ws close handler: run handleUserLeave for the closing socket's
client record, then drop all client records of that socket. -/
def handleClose (st : ServiceState) (ws : Nat) : ServiceState × List Output :=
  let r :=
    match st.clients.find? (fun c => c.ws == ws) with
    | some client => handleUserLeave st client
    | none => (st, [])
  ({ r.1 with clients := r.1.clients.filter (fun c => c.ws != ws) }, r.2)

/-- WhiteboardService.handleCursorMove. -/
def handleCursorMove (st : ServiceState) (sessionId userId : String)
    (x y : Int) (now : Nat) : ServiceState × List Output :=
  match recordGet st.sessions sessionId with
  | none => (st, [])
  | some session =>
      match recordGet session.users userId with
      | none => (st, [])
      | some user =>
          let user' := { user with cursor := some (x, y), lastActive := now }
          let session' := { session with users := recordSet session.users userId user' }
          ({ st with sessions := recordSet st.sessions sessionId session' },
           [Output.broadcast sessionId
              (EventPayload.cursorMoved sessionId userId x y) [userId]])

/-- WhiteboardService.handleAddIdea: the inbound idea object is pushed
onto session.ideas as received. -/
def handleAddIdea (st : ServiceState) (sessionId : String) (idea : IdeaNode)
    (now : Nat) : ServiceState × List Output :=
  match recordGet st.sessions sessionId with
  | none => (st, [])
  | some session =>
      let session' := { session with ideas := session.ideas ++ [idea], lastActive := now }
      ({ st with sessions := recordSet st.sessions sessionId session' },
       [Output.broadcast sessionId (EventPayload.ideaAdded sessionId idea) []])

/-- WhiteboardService.handleDeleteIdea: filter out the idea, then strip its
id from every remaining idea's connections; broadcast unconditionally. -/
def handleDeleteIdea (st : ServiceState) (sessionId ideaId : String)
    (now : Nat) : ServiceState × List Output :=
  match recordGet st.sessions sessionId with
  | none => (st, [])
  | some session =>
      let ideas1 := session.ideas.filter (fun i => i.id != ideaId)
      let ideas2 := ideas1.map
        (fun i => { i with connections := i.connections.filter (fun c => c != ideaId) })
      let session' := { session with ideas := ideas2, lastActive := now }
      ({ st with sessions := recordSet st.sessions sessionId session' },
       [Output.broadcast sessionId (EventPayload.ideaDeleted sessionId ideaId) []])

/-- WhiteboardService.handleUpdateIdea: findIndex on the id, shallow-merge
the updates into that element; silent no-op when the index is -1. -/
def handleUpdateIdea (st : ServiceState) (sessionId ideaId : String)
    (updates : UpdatePayload) (now : Nat) : ServiceState × List Output :=
  match recordGet st.sessions sessionId with
  | none => (st, [])
  | some session =>
      if session.ideas.any (fun i => i.id == ideaId) then
        let session' :=
          { session with
              ideas := updateFirstIdea session.ideas ideaId (fun i => applyUpdates i updates),
              lastActive := now }
        ({ st with sessions := recordSet st.sessions sessionId session' },
         [Output.broadcast sessionId
            (EventPayload.ideaUpdated sessionId ideaId updates) []])
      else (st, [])

/-- The in-place mutation performed on one endpoint of add-connection:
push the other endpoint's id if it is absent. -/
def connAdd (t : String) (i : IdeaNode) : IdeaNode :=
  if t ∈ i.connections then i else { i with connections := i.connections ++ [t] }

/-- The in-place mutation performed on one endpoint of remove-connection:
filter the other endpoint's id out of the connections. -/
def connRemove (t : String) (i : IdeaNode) : IdeaNode :=
  { i with connections := i.connections.filter (fun c => c != t) }

/-- WhiteboardService.handleAddConnection: both ideas are looked up first;
if both exist, the target id is pushed onto the source's connections when
absent, then the source id onto the target's connections when absent.  The
two mutations are sequential, so when sourceId = targetId the second check
sees the first push (find returns the same object). -/
def handleAddConnection (st : ServiceState) (sessionId sourceId targetId : String)
    (now : Nat) : ServiceState × List Output :=
  match recordGet st.sessions sessionId with
  | none => (st, [])
  | some session =>
      if session.ideas.any (fun i => i.id == sourceId) &&
         session.ideas.any (fun i => i.id == targetId) then
        let ideas1 := updateFirstIdea session.ideas sourceId (connAdd targetId)
        let ideas2 := updateFirstIdea ideas1 targetId (connAdd sourceId)
        let session' := { session with ideas := ideas2, lastActive := now }
        ({ st with sessions := recordSet st.sessions sessionId session' },
         [Output.broadcast sessionId
            (EventPayload.connectionAdded sessionId sourceId targetId) []])
      else (st, [])

/-- WhiteboardService.handleRemoveConnection: each endpoint that exists has
the other id filtered out of its connections; lastActive is refreshed and
the event broadcast whether or not either idea exists. -/
def handleRemoveConnection (st : ServiceState) (sessionId sourceId targetId : String)
    (now : Nat) : ServiceState × List Output :=
  match recordGet st.sessions sessionId with
  | none => (st, [])
  | some session =>
      let ideas1 := updateFirstIdea session.ideas sourceId (connRemove targetId)
      let ideas2 := updateFirstIdea ideas1 targetId (connRemove sourceId)
      let session' := { session with ideas := ideas2, lastActive := now }
      ({ st with sessions := recordSet st.sessions sessionId session' },
       [Output.broadcast sessionId
          (EventPayload.connectionRemoved sessionId sourceId targetId) []])

/-- WhiteboardService.handleVote: increment the found idea's vote count and
broadcast the new count; silent no-op when the idea does not exist. -/
def handleVote (st : ServiceState) (sessionId ideaId userId : String)
    (now : Nat) : ServiceState × List Output :=
  match recordGet st.sessions sessionId with
  | none => (st, [])
  | some session =>
      match session.ideas.find? (fun i => i.id == ideaId) with
      | none => (st, [])
      | some idea =>
          let session' :=
            { session with
                ideas := updateFirstIdea session.ideas ideaId
                  (fun i => { i with votes := i.votes + 1 }),
                lastActive := now }
          ({ st with sessions := recordSet st.sessions sessionId session' },
           [Output.broadcast sessionId
              (EventPayload.ideaVoted sessionId ideaId userId (idea.votes + 1)) []])

/-- An inbound command, after the WhiteboardMessage union, plus the socket
close event. -/
inductive Command where
  | join (ws : Nat) (sessionId : String) (user : WhiteboardUser)
  | leave (sessionId userId : String)
  | cursorMove (sessionId userId : String) (x y : Int)
  | addIdea (sessionId : String) (idea : IdeaNode)
  | deleteIdea (sessionId ideaId : String)
  | updateIdea (sessionId ideaId : String) (updates : UpdatePayload)
  | addConnection (sessionId sourceId targetId : String)
  | removeConnection (sessionId sourceId targetId : String)
  | vote (sessionId ideaId userId : String)
  | close (ws : Nat)
deriving DecidableEq

/-- Dispatch of one command at one instant: handleMessage plus the close
event. -/
def step (st : ServiceState) (c : Command) (now : Nat) : ServiceState × List Output :=
  match c with
  | Command.join ws sessionId user => handleJoin st ws sessionId user now
  | Command.leave sessionId userId => handleLeaveMessage st sessionId userId
  | Command.cursorMove sessionId userId x y => handleCursorMove st sessionId userId x y now
  | Command.addIdea sessionId idea => handleAddIdea st sessionId idea now
  | Command.deleteIdea sessionId ideaId => handleDeleteIdea st sessionId ideaId now
  | Command.updateIdea sessionId ideaId updates => handleUpdateIdea st sessionId ideaId updates now
  | Command.addConnection sessionId sourceId targetId =>
      handleAddConnection st sessionId sourceId targetId now
  | Command.removeConnection sessionId sourceId targetId =>
      handleRemoveConnection st sessionId sourceId targetId now
  | Command.vote sessionId ideaId userId => handleVote st sessionId ideaId userId now
  | Command.close ws => handleClose st ws

/-- Run a list of timestamped commands, discarding outputs. -/
def run (st : ServiceState) : List (Command × Nat) → ServiceState
  | [] => st
  | (c, now) :: rest => run (step st c now).1 rest

/-- WhiteboardService.createDemoSession: the demo session installed by the
constructor, with all Date values taken at construction time. -/
def demoSession (now : Nat) : WhiteboardSession :=
  { id := "demo-session"
    name := "Demo Brainstorming Session"
    ideas :=
      [ { id := "idea1"
          text := "Use concrete examples to make the prompt more specific"
          x := 200, y := 150, color := "#F97316"
          connections := ["idea2"]
          createdBy := "system", createdAt := now
          votes := 3, isSelected := false },
        { id := "idea2"
          text := "Define the expected output format clearly"
          x := 400, y := 250, color := "#8B5CF6"
          connections := ["idea1"]
          createdBy := "system", createdAt := now
          votes := 2, isSelected := false } ]
    users := []
    createdAt := now
    lastActive := now }

/-- The service state right after the constructor ran: only the demo
session, no clients. -/
def initialState (now : Nat) : ServiceState :=
  { sessions := [("demo-session", demoSession now)], clients := [] }

/-- A session summary as produced by getSessions. -/
structure SessionSummary where
  id : String
  name : String
  userCount : Nat
  ideaCount : Nat
  createdAt : Nat
  lastActive : Nat
deriving DecidableEq

/-- The per-session projection inside getSessions, computed from the live
session. -/
def sessionSummary (s : WhiteboardSession) : SessionSummary :=
  { id := s.id, name := s.name
    userCount := (s.users.map Prod.fst).length
    ideaCount := s.ideas.length
    createdAt := s.createdAt, lastActive := s.lastActive }

/-- WhiteboardService.getSessions. -/
def getSessions (st : ServiceState) : List SessionSummary :=
  st.sessions.map (fun p => sessionSummary p.2)

/-- WhiteboardService.getSession. -/
def getSession (st : ServiceState) (sessionId : String) : Option WhiteboardSession :=
  recordGet st.sessions sessionId

/-- The summary entry the connection handler pushes in its sessions-list
message (it carries no lastActive field). -/
structure ConnectSummary where
  id : String
  name : String
  userCount : Nat
  ideaCount : Nat
  createdAt : Nat
deriving DecidableEq

/-- The sessions-list payload sent to a newly connected socket. -/
def connectSessionsList (st : ServiceState) : List ConnectSummary :=
  st.sessions.map (fun p =>
    { id := p.2.id, name := p.2.name
      userCount := (p.2.users.map Prod.fst).length
      ideaCount := p.2.ideas.length
      createdAt := p.2.createdAt })

/-- WhiteboardService.createSession: the uuid is passed in as freshId. -/
def createSession (st : ServiceState) (name : String) (freshId : String)
    (now : Nat) : ServiceState × WhiteboardSession :=
  let session : WhiteboardSession :=
    { id := freshId, name := name, ideas := [], users := [],
      createdAt := now, lastActive := now }
  ({ st with sessions := recordSet st.sessions freshId session }, session)

/-- Modelled from the spec: the HTTP route that serves a create-session
request is not under src (the client hook posts to
/api/whiteboard/sessions and WhiteboardService.createSession is the public
method it drives, but no route binding appears in routes.ts).  Following
spec section 6: a request with a name creates the session and answers 201
with the new session summary; a request with the name missing answers 400
without touching the state. -/
def httpCreateSession (st : ServiceState) (nameField : Option String)
    (freshId : String) (now : Nat) : ServiceState × Nat × Option SessionSummary :=
  match nameField with
  | none => (st, 400, none)
  | some name =>
      let r := createSession st name freshId now
      (r.1, 201, some (sessionSummary r.2))

/-- No dangling references: every connection entry of every idea of the
session names an idea still present in the session. -/
def NoDangling (s : WhiteboardSession) : Prop :=
  ∀ i ∈ s.ideas, ∀ c ∈ i.connections, ∃ j ∈ s.ideas, j.id = c

/-- Symmetry of the connection lists of a list of ideas: for every pair,
one lists the other's id exactly when the other lists its id. -/
def SymIdeas (l : List IdeaNode) : Prop :=
  ∀ a ∈ l, ∀ b ∈ l, (b.id ∈ a.connections ↔ a.id ∈ b.connections)

/-- Idea ids are pairwise distinct within the session, as the data model
requires. -/
def IdsNodup (s : WhiteboardSession) : Prop :=
  (s.ideas.map IdeaNode.id).Nodup

/-- No dangling references, phrased on a bare list of ideas. -/
def NoDanglingIdeas (l : List IdeaNode) : Prop :=
  ∀ i ∈ l, ∀ c ∈ i.connections, c ∈ l.map IdeaNode.id

instance (s : WhiteboardSession) : Decidable (NoDangling s) :=
  inferInstanceAs (Decidable (∀ i ∈ s.ideas, ∀ c ∈ i.connections, ∃ j ∈ s.ideas, j.id = c))

instance (l : List IdeaNode) : Decidable (NoDanglingIdeas l) :=
  inferInstanceAs (Decidable (∀ i ∈ l, ∀ c ∈ i.connections, c ∈ l.map IdeaNode.id))

instance (l : List IdeaNode) : Decidable (SymIdeas l) :=
  inferInstanceAs
    (Decidable (∀ a ∈ l, ∀ b ∈ l, (b.id ∈ a.connections ↔ a.id ∈ b.connections)))

instance (s : WhiteboardSession) : Decidable (IdsNodup s) :=
  inferInstanceAs (Decidable (s.ideas.map IdeaNode.id).Nodup)

/-- A command whose payload cannot smuggle connection entries past the
handlers' referential checks: add-idea carries an empty connections list
(as the client-side creation path always does) and update-idea rewrites
neither the id nor the connections of the idea. -/
def benignCmd : Command → Bool
  | Command.addIdea _ idea => idea.connections.isEmpty
  | Command.updateIdea _ _ u => u.id.isNone && u.connections.isNone
  | _ => true

/-- The three commands quantified over by the symmetry property. -/
def isConnCmd : Command → Bool
  | Command.addConnection _ _ _ => true
  | Command.removeConnection _ _ _ => true
  | Command.deleteIdea _ _ => true
  | _ => false

/-! ### Sample payloads used by concrete evaluations -/

/-- An inbound idea payload whose connections list names an idea id that
exists in no session. -/
def sampleIdeaDangling : IdeaNode :=
  { id := "i8", text := "dangling", x := 0, y := 0, color := "#333333",
    connections := ["ghost"], createdBy := "u1", createdAt := 0,
    votes := 0, isSelected := false }

/-- A well-formed inbound idea payload whose connections list is not empty. -/
def sampleIdeaWithConnections : IdeaNode :=
  { id := "i9", text := "new idea", x := 10, y := 20, color := "#000000",
    connections := ["idea1"], createdBy := "u1", createdAt := 5,
    votes := 0, isSelected := false }

/-- A well-formed inbound idea payload with an empty connections list, as
the client-side creation path always sends. -/
def sampleIdeaEmpty : IdeaNode :=
  { id := "i7", text := "fresh idea", x := 1, y := 2, color := "#FFFFFF",
    connections := [], createdBy := "u1", createdAt := 6,
    votes := 0, isSelected := false }

/-- A sample joining user. -/
def sampleUser : WhiteboardUser :=
  { id := "u1", name := "Alice", color := "#112233", cursor := none,
    isActive := false, lastActive := 0 }

/-- An update payload that carries no field at all. -/
def emptyUpdate : UpdatePayload :=
  { id := none, text := none, x := none, y := none, color := none,
    connections := none, createdBy := none, createdAt := none,
    votes := none, isSelected := none }

/-- A session holding two ideas with no connection between them. -/
def sessionTwoUnconnected : WhiteboardSession :=
  { id := "s2", name := "Two unconnected ideas"
    ideas :=
      [ { id := "a", text := "A", x := 0, y := 0, color := "#111111",
          connections := [], createdBy := "u1", createdAt := 0,
          votes := 0, isSelected := false },
        { id := "b", text := "B", x := 3, y := 4, color := "#222222",
          connections := [], createdBy := "u1", createdAt := 0,
          votes := 0, isSelected := false } ]
    users := []
    createdAt := 0
    lastActive := 0 }

/-- A service state holding only sessionTwoUnconnected. -/
def stateTwoUnconnected : ServiceState :=
  { sessions := [("s2", sessionTwoUnconnected)], clients := [] }

/-- A user u1 already present in a session. -/
def userU1 : WhiteboardUser :=
  { id := "u1", name := "Alice", color := "#101010", cursor := none,
    isActive := true, lastActive := 0 }

/-- A user u2 already present in a session. -/
def userU2 : WhiteboardUser :=
  { id := "u2", name := "Bob", color := "#202020", cursor := none,
    isActive := true, lastActive := 0 }

/-- A user u3 about to join. -/
def userU3 : WhiteboardUser :=
  { id := "u3", name := "Carol", color := "#303030", cursor := none,
    isActive := false, lastActive := 0 }

/-- A session with two present users and no ideas. -/
def sessionS1 : WhiteboardSession :=
  { id := "s1", name := "Session one", ideas := [],
    users := [("u1", userU1), ("u2", userU2)],
    createdAt := 0, lastActive := 0 }

/-- A state with one session s1, two present users and their two client
connections. -/
def stateWithClients : ServiceState :=
  { sessions := [("s1", sessionS1)],
    clients :=
      [{ ws := 1, userId := "u1", sessionId := "s1" },
       { ws := 2, userId := "u2", sessionId := "s1" }] }

/-! ### Helper lemmas on the record and update operations -/

theorem recordGet_recordSet_self {α : Type} (m : List (String × α)) (k : String) (v : α) :
    recordGet (recordSet m k v) k = some v := by
  induction m with
  | nil => simp [recordSet, recordGet]
  | cons p rest ih =>
      by_cases h : p.1 = k
      · simp [recordSet, recordGet, h]
      · simp [recordSet, recordGet, h, ih]

theorem recordGet_recordSet_ne {α : Type} (m : List (String × α)) (k k' : String) (v : α)
    (h : k' ≠ k) : recordGet (recordSet m k v) k' = recordGet m k' := by
  induction m with
  | nil =>
      simp only [recordSet, recordGet]
      rw [if_neg (fun hh => h hh.symm)]
  | cons p rest ih =>
      by_cases hp : p.1 = k
      · simp only [recordSet, if_pos hp, recordGet]
        rw [if_neg (fun hh => h hh.symm), if_neg (fun hh : p.1 = k' => h (hp ▸ hh).symm)]
      · by_cases hp' : p.1 = k'
        · simp only [recordSet, if_neg hp, recordGet, if_pos hp']
        · simp only [recordSet, if_neg hp, recordGet, if_neg hp']
          exact ih

theorem mem_recordSet {α : Type} {m : List (String × α)} {k : String} {v : α}
    {p : String × α} (h : p ∈ recordSet m k v) : p ∈ m ∨ p = (k, v) := by
  induction m with
  | nil => simpa [recordSet] using h
  | cons q rest ih =>
      by_cases hq : q.1 = k
      · simp only [recordSet, if_pos hq, List.mem_cons] at h
        rcases h with h | h
        · exact Or.inr h
        · exact Or.inl (List.mem_cons_of_mem q h)
      · simp only [recordSet, if_neg hq, List.mem_cons] at h
        rcases h with h | h
        · exact Or.inl (h ▸ List.mem_cons_self q rest)
        · rcases ih h with h' | h'
          · exact Or.inl (List.mem_cons_of_mem q h')
          · exact Or.inr h'

theorem mem_of_recordGet {α : Type} {m : List (String × α)} {k : String} {v : α}
    (h : recordGet m k = some v) : (k, v) ∈ m := by
  induction m with
  | nil => simp [recordGet] at h
  | cons p rest ih =>
      by_cases hp : p.1 = k
      · simp only [recordGet, if_pos hp, Option.some.injEq] at h
        have hkv : (k, v) = p := by rw [← hp, ← h]
        rw [hkv]
        exact List.mem_cons_self p rest
      · simp only [recordGet, if_neg hp] at h
        exact List.mem_cons_of_mem p (ih h)

theorem recordGet_eq_none_iff {α : Type} {m : List (String × α)} {k : String} :
    recordGet m k = none ↔ ∀ p ∈ m, p.1 ≠ k := by
  induction m with
  | nil => simp [recordGet]
  | cons p rest ih =>
      by_cases hp : p.1 = k
      · simp [recordGet, hp]
      · simp [recordGet, hp, ih]

theorem recordSet_ne_nil {α : Type} (m : List (String × α)) (k : String) (v : α) :
    recordSet m k v ≠ [] := by
  cases m with
  | nil => simp [recordSet]
  | cons p rest =>
      by_cases hp : p.1 = k <;> simp [recordSet, hp]

theorem recordSet_recordSet_self {α : Type} (m : List (String × α)) (k : String) (v w : α) :
    recordSet (recordSet m k v) k w = recordSet m k w := by
  induction m with
  | nil => simp [recordSet]
  | cons p rest ih =>
      by_cases hp : p.1 = k
      · simp [recordSet, hp]
      · simp [recordSet, hp, ih]

theorem isSome_recordGet_recordSet {α : Type} (m : List (String × α)) (k j : String) (v : α)
    (h : (recordGet m j).isSome = true) :
    (recordGet (recordSet m k v) j).isSome = true := by
  by_cases hk : j = k
  · rw [hk, recordGet_recordSet_self]; rfl
  · rwa [recordGet_recordSet_ne _ _ _ _ hk]

theorem length_recordSet {α : Type} (m : List (String × α)) (k : String) (v : α) :
    (recordSet m k v).length =
      if (recordGet m k).isSome then m.length else m.length + 1 := by
  induction m with
  | nil => simp [recordSet, recordGet]
  | cons p rest ih =>
      by_cases hp : p.1 = k
      · simp [recordSet, recordGet, hp]
      · simp only [recordSet, if_neg hp, recordGet, List.length_cons, ih]
        by_cases hs : (recordGet rest k).isSome <;> simp [hs]

theorem length_recordDelete {α : Type} (m : List (String × α)) (k : String) :
    (recordDelete m k).length =
      if (recordGet m k).isSome then m.length - 1 else m.length := by
  induction m with
  | nil => simp [recordDelete, recordGet]
  | cons p rest ih =>
      by_cases hp : p.1 = k
      · simp [recordDelete, recordGet, hp]
      · simp only [recordDelete, if_neg hp, recordGet, List.length_cons, ih]
        by_cases hs : (recordGet rest k).isSome
        · simp only [hs, if_true]
          cases rest with
          | nil => simp [recordGet] at hs
          | cons q t => simp
        · simp [hs]

theorem map_id_updateFirstIdea (l : List IdeaNode) (k : String) (f : IdeaNode → IdeaNode)
    (hf : ∀ i, (f i).id = i.id) :
    (updateFirstIdea l k f).map IdeaNode.id = l.map IdeaNode.id := by
  induction l with
  | nil => rfl
  | cons i rest ih =>
      by_cases hi : i.id = k
      · simp [updateFirstIdea, hi, hf]
      · simp [updateFirstIdea, hi, ih]

theorem mem_updateFirstIdea {l : List IdeaNode} {k : String} {f : IdeaNode → IdeaNode}
    {j : IdeaNode} (h : j ∈ updateFirstIdea l k f) :
    j ∈ l ∨ ∃ i, i ∈ l ∧ i.id = k ∧ j = f i := by
  induction l with
  | nil => simp [updateFirstIdea] at h
  | cons i rest ih =>
      by_cases hi : i.id = k
      · simp only [updateFirstIdea, if_pos hi, List.mem_cons] at h
        rcases h with h | h
        · exact Or.inr ⟨i, List.mem_cons_self i rest, hi, h⟩
        · exact Or.inl (List.mem_cons_of_mem i h)
      · simp only [updateFirstIdea, if_neg hi, List.mem_cons] at h
        rcases h with h | h
        · exact Or.inl (h ▸ List.mem_cons_self i rest)
        · rcases ih h with h' | ⟨i', hi', hk', hj'⟩
          · exact Or.inl (List.mem_cons_of_mem i h')
          · exact Or.inr ⟨i', List.mem_cons_of_mem i hi', hk', hj'⟩

theorem updateFirstIdea_eq_self {l : List IdeaNode} {k : String} {f : IdeaNode → IdeaNode}
    (h : ∀ i ∈ l, i.id = k → f i = i) : updateFirstIdea l k f = l := by
  induction l with
  | nil => rfl
  | cons i rest ih =>
      by_cases hi : i.id = k
      · simp [updateFirstIdea, hi, h i (List.mem_cons_self i rest) hi]
      · simp only [updateFirstIdea, if_neg hi, List.cons.injEq, true_and]
        exact ih (fun j hj => h j (List.mem_cons_of_mem i hj))

theorem updateFirstIdea_comp (l : List IdeaNode) (k : String)
    (f g : IdeaNode → IdeaNode) (hf : ∀ i, (f i).id = i.id) :
    updateFirstIdea (updateFirstIdea l k f) k g =
      updateFirstIdea l k (fun i => g (f i)) := by
  induction l with
  | nil => rfl
  | cons i rest ih =>
      by_cases hi : i.id = k
      · simp [updateFirstIdea, hi, hf]
      · simp [updateFirstIdea, hi, ih]

theorem updateFirstIdea_comm (l : List IdeaNode) (k k' : String)
    (f g : IdeaNode → IdeaNode) (hkk : k ≠ k')
    (hf : ∀ i, (f i).id = i.id) (hg : ∀ i, (g i).id = i.id) :
    updateFirstIdea (updateFirstIdea l k f) k' g =
      updateFirstIdea (updateFirstIdea l k' g) k f := by
  induction l with
  | nil => rfl
  | cons i rest ih =>
      by_cases hi : i.id = k
      · have hi' : i.id ≠ k' := fun hh => hkk (hi ▸ hh ▸ rfl)
        simp [updateFirstIdea, hi, hi', hf, hg, hkk, Ne.symm hkk]
      · by_cases hi' : i.id = k'
        · simp [updateFirstIdea, hi, hi', hf, hg, hkk, Ne.symm hkk]
        · simp [updateFirstIdea, hi, hi', ih]

theorem updateFirstIdea_eq_map {l : List IdeaNode} {k : String} {f : IdeaNode → IdeaNode}
    (h : (l.map IdeaNode.id).Nodup) :
    updateFirstIdea l k f = l.map (fun i => if i.id = k then f i else i) := by
  induction l with
  | nil => rfl
  | cons i rest ih =>
      simp only [List.map_cons, List.nodup_cons] at h
      by_cases hi : i.id = k
      · have : ∀ j ∈ rest, (if j.id = k then f j else j) = j := by
          intro j hj
          have : j.id ≠ k := fun hh => h.1 (hi ▸ hh ▸ List.mem_map_of_mem IdeaNode.id hj)
          simp [this]
        simp only [updateFirstIdea, if_pos hi, List.map_cons, if_pos hi, List.cons.injEq,
          true_and]
        exact (List.map_congr_left this).symm ▸ (List.map_id rest).symm ▸ rfl
      · simp [updateFirstIdea, hi, ih h.2]

theorem find?_updateFirstIdea_ne (l : List IdeaNode) (k k' : String)
    (h : IdeaNode → IdeaNode) (hne : k ≠ k') (hh : ∀ i, (h i).id = i.id) :
    (updateFirstIdea l k' h).find? (fun j => j.id == k) =
      l.find? (fun j => j.id == k) := by
  induction l with
  | nil => rfl
  | cons i rest ih =>
      by_cases hi : i.id = k'
      · have hik : i.id ≠ k := fun hk => hne (hk.symm.trans hi)
        simp only [updateFirstIdea, if_pos hi]
        rw [List.find?_cons_of_neg _ (by simp [hh, hik]),
          List.find?_cons_of_neg _ (by simp [hik])]
      · by_cases hik : i.id = k
        · simp [updateFirstIdea, hi, hik, hne]
        · simp [updateFirstIdea, hi, hik, ih]

theorem find?_updateFirstIdea_self (l : List IdeaNode) (k : String)
    (f : IdeaNode → IdeaNode) (hf : ∀ i, (f i).id = i.id) :
    (updateFirstIdea l k f).find? (fun j => j.id == k) =
      (l.find? (fun j => j.id == k)).map f := by
  induction l with
  | nil => rfl
  | cons i rest ih =>
      by_cases hi : i.id = k
      · simp [updateFirstIdea, hi, hf]
      · simp [updateFirstIdea, hi, ih]

theorem updateFirstIdea_of_find?_fixed {l : List IdeaNode} {k : String}
    {f : IdeaNode → IdeaNode}
    (h : ∀ i, l.find? (fun j => j.id == k) = some i → f i = i) :
    updateFirstIdea l k f = l := by
  induction l with
  | nil => rfl
  | cons i rest ih =>
      by_cases hi : i.id = k
      · have hfi : f i = i := h i (by simp [hi])
        simp [updateFirstIdea, hi, hfi]
      · simp only [updateFirstIdea, if_neg hi, List.cons.injEq, true_and]
        refine ih (fun j hj => h j ?_)
        simpa [hi] using hj

theorem any_id_of_map_id_eq {l l' : List IdeaNode}
    (h : l.map IdeaNode.id = l'.map IdeaNode.id) (k : String) :
    l.any (fun i => i.id == k) = l'.any (fun i => i.id == k) := by
  have h1 : ∀ m : List IdeaNode, m.any (fun i => i.id == k) =
      (m.map IdeaNode.id).any (fun j => j == k) := by
    intro m
    induction m with
    | nil => rfl
    | cons a t ih => simp [ih]
  rw [h1, h1, h]

theorem any_id_false {l : List IdeaNode} {k : String} (h : ∀ i ∈ l, i.id ≠ k) :
    l.any (fun i => i.id == k) = false := by
  induction l with
  | nil => rfl
  | cons i rest ih =>
      simp only [List.any_cons, Bool.or_eq_false_iff]
      exact ⟨by simpa using h i (List.mem_cons_self i rest),
        ih (fun j hj => h j (List.mem_cons_of_mem i hj))⟩

theorem find?_id_none {l : List IdeaNode} {k : String} (h : ∀ i ∈ l, i.id ≠ k) :
    l.find? (fun i => i.id == k) = none := by
  induction l with
  | nil => rfl
  | cons i rest ih =>
      rw [List.find?_cons_of_neg _ (by simpa using h i (List.mem_cons_self i rest))]
      exact ih (fun j hj => h j (List.mem_cons_of_mem i hj))

theorem connAdd_id (t : String) (i : IdeaNode) : (connAdd t i).id = i.id := by
  unfold connAdd
  split <;> rfl

theorem connRemove_id (t : String) (i : IdeaNode) : (connRemove t i).id = i.id := rfl

theorem mem_connAdd_self (t : String) (i : IdeaNode) : t ∈ (connAdd t i).connections := by
  unfold connAdd
  by_cases h : t ∈ i.connections
  · simp only [if_pos h]
    exact h
  · simp [h]

theorem connAdd_eq_self {t : String} {j : IdeaNode} (h : t ∈ j.connections) :
    connAdd t j = j := by
  unfold connAdd
  simp [h]

theorem mem_connAdd_iff (t x : String) (i : IdeaNode) :
    x ∈ (connAdd t i).connections ↔ x ∈ i.connections ∨ x = t := by
  unfold connAdd
  by_cases h : t ∈ i.connections
  · simp only [if_pos h]
    constructor
    · exact Or.inl
    · rintro (hx | rfl)
      · exact hx
      · exact h
  · simp [h]

theorem mem_connRemove_iff (t x : String) (i : IdeaNode) :
    x ∈ (connRemove t i).connections ↔ x ∈ i.connections ∧ x ≠ t := by
  unfold connRemove
  simp [List.mem_filter]

theorem connAdd_connAdd (t : String) (i : IdeaNode) :
    connAdd t (connAdd t i) = connAdd t i :=
  connAdd_eq_self (mem_connAdd_self t i)

theorem any_imp_find? {l : List IdeaNode} {k : String}
    (h : l.any (fun i => i.id == k) = true) :
    ∃ i, l.find? (fun i => i.id == k) = some i ∧ i.id = k := by
  induction l with
  | nil => simp at h
  | cons i rest ih =>
      by_cases hi : i.id = k
      · exact ⟨i, by simp [hi], hi⟩
      · rw [List.find?_cons_of_neg _ (by simpa using hi)]
        refine ih ?_
        simpa [hi] using h

theorem addConn_ideas_idem (l : List IdeaNode) (src tgt : String) (hne : src ≠ tgt)
    (hsrc : l.any (fun i => i.id == src) = true)
    (htgt : l.any (fun i => i.id == tgt) = true) :
    updateFirstIdea (updateFirstIdea
        (updateFirstIdea (updateFirstIdea l src (connAdd tgt)) tgt (connAdd src))
        src (connAdd tgt)) tgt (connAdd src) =
      updateFirstIdea (updateFirstIdea l src (connAdd tgt)) tgt (connAdd src) := by
  have hfind_src :
      (updateFirstIdea (updateFirstIdea l src (connAdd tgt)) tgt (connAdd src)).find?
        (fun j => j.id == src) =
      (l.find? (fun j => j.id == src)).map (connAdd tgt) := by
    rw [find?_updateFirstIdea_ne _ src tgt (connAdd src) hne (connAdd_id src),
      find?_updateFirstIdea_self l src (connAdd tgt) (connAdd_id tgt)]
  obtain ⟨i0, hi0, hi0id⟩ := any_imp_find? hsrc
  have hstep3 :
      updateFirstIdea
        (updateFirstIdea (updateFirstIdea l src (connAdd tgt)) tgt (connAdd src))
        src (connAdd tgt) =
      updateFirstIdea (updateFirstIdea l src (connAdd tgt)) tgt (connAdd src) := by
    apply updateFirstIdea_of_find?_fixed
    intro i hi
    rw [hfind_src, hi0] at hi
    have hieq : i = connAdd tgt i0 := by
      simpa using hi.symm
    rw [hieq]
    exact connAdd_connAdd tgt i0
  have hfind_tgt :
      (updateFirstIdea (updateFirstIdea l src (connAdd tgt)) tgt (connAdd src)).find?
        (fun j => j.id == tgt) =
      (l.find? (fun j => j.id == tgt)).map (connAdd src) := by
    rw [find?_updateFirstIdea_self _ tgt (connAdd src) (connAdd_id src),
      find?_updateFirstIdea_ne l tgt src (connAdd tgt) (Ne.symm hne) (connAdd_id tgt)]
  obtain ⟨j0, hj0, hj0id⟩ := any_imp_find? htgt
  rw [hstep3]
  apply updateFirstIdea_of_find?_fixed
  intro i hi
  rw [hfind_tgt, hj0] at hi
  have hieq : i = connAdd src j0 := by
    simpa using hi.symm
  rw [hieq]
  exact connAdd_connAdd src j0

theorem mem_broadcastRecipients {clients : List ConnectedClient} {sid : String}
    {excl : List String} {c : ConnectedClient}
    (h : c ∈ broadcastRecipients clients sid excl) :
    c.sessionId = sid ∧ c.userId ∉ excl := by
  unfold broadcastRecipients at h
  rw [List.mem_filter] at h
  obtain ⟨-, hp⟩ := h
  simp only [Bool.and_eq_true, beq_iff_eq, Bool.not_eq_true'] at hp
  refine ⟨hp.1, ?_⟩
  intro hmem
  have : excl.contains c.userId = true := by
    simpa [List.contains] using hmem
  rw [this] at hp
  exact absurd hp.2 (by simp)

theorem sessionSummary_mem_getSessions {st : ServiceState} {sid : String}
    {s : WhiteboardSession} (h : recordGet st.sessions sid = some s) :
    sessionSummary s ∈ getSessions st :=
  List.mem_map_of_mem (fun p => sessionSummary p.2) (mem_of_recordGet h)

theorem handleUserLeave_preserves_key (key : String) (st : ServiceState)
    (client : ConnectedClient) (h : (recordGet st.sessions key).isSome = true) :
    (recordGet (handleUserLeave st client).1.sessions key).isSome = true := by
  cases hg : recordGet st.sessions client.sessionId with
  | none => simpa [handleUserLeave, hg] using h
  | some session =>
      simp only [handleUserLeave, hg]
      exact isSome_recordGet_recordSet _ _ _ _ h

theorem step_preserves_key (key : String) (st : ServiceState) (c : Command) (now : Nat)
    (h : (recordGet st.sessions key).isSome = true) :
    (recordGet (step st c now).1.sessions key).isSome = true := by
  cases c with
  | join ws sid user =>
      simp only [step, handleJoin]
      exact isSome_recordGet_recordSet _ _ _ _ h
  | leave sid uid =>
      cases hf : st.clients.find? (fun c => c.userId == uid && c.sessionId == sid) with
      | none => simpa [step, handleLeaveMessage, hf] using h
      | some client =>
          simp only [step, handleLeaveMessage, hf]
          exact handleUserLeave_preserves_key key st client h
  | cursorMove sid uid x y =>
      cases hg : recordGet st.sessions sid with
      | none => simpa [step, handleCursorMove, hg] using h
      | some s =>
          cases hu : recordGet s.users uid with
          | none => simpa [step, handleCursorMove, hg, hu] using h
          | some u =>
              simp only [step, handleCursorMove, hg, hu]
              exact isSome_recordGet_recordSet _ _ _ _ h
  | addIdea sid idea =>
      cases hg : recordGet st.sessions sid with
      | none => simpa [step, handleAddIdea, hg] using h
      | some s =>
          simp only [step, handleAddIdea, hg]
          exact isSome_recordGet_recordSet _ _ _ _ h
  | deleteIdea sid iid =>
      cases hg : recordGet st.sessions sid with
      | none => simpa [step, handleDeleteIdea, hg] using h
      | some s =>
          simp only [step, handleDeleteIdea, hg]
          exact isSome_recordGet_recordSet _ _ _ _ h
  | updateIdea sid iid u =>
      cases hg : recordGet st.sessions sid with
      | none => simpa [step, handleUpdateIdea, hg] using h
      | some s =>
          by_cases hany : s.ideas.any (fun i => i.id == iid) = true
          · simp only [step, handleUpdateIdea, hg, hany, if_pos]
            exact isSome_recordGet_recordSet _ _ _ _ h
          · simpa [step, handleUpdateIdea, hg, hany] using h
  | addConnection sid src tgt =>
      cases hg : recordGet st.sessions sid with
      | none => simpa [step, handleAddConnection, hg] using h
      | some s =>
          by_cases hguard : (s.ideas.any (fun i => i.id == src) &&
              s.ideas.any (fun i => i.id == tgt)) = true
          · simp only [step, handleAddConnection, hg, hguard, if_pos]
            exact isSome_recordGet_recordSet _ _ _ _ h
          · simpa [step, handleAddConnection, hg, hguard] using h
  | removeConnection sid src tgt =>
      cases hg : recordGet st.sessions sid with
      | none => simpa [step, handleRemoveConnection, hg] using h
      | some s =>
          simp only [step, handleRemoveConnection, hg]
          exact isSome_recordGet_recordSet _ _ _ _ h
  | vote sid iid uid =>
      cases hg : recordGet st.sessions sid with
      | none => simpa [step, handleVote, hg] using h
      | some s =>
          cases hf : s.ideas.find? (fun i => i.id == iid) with
          | none => simpa [step, handleVote, hg, hf] using h
          | some idea =>
              simp only [step, handleVote, hg, hf]
              exact isSome_recordGet_recordSet _ _ _ _ h
  | close ws =>
      cases hf : st.clients.find? (fun c => c.ws == ws) with
      | none => simpa [step, handleClose, hf] using h
      | some client =>
          simp only [step, handleClose, hf]
          exact handleUserLeave_preserves_key key st client h

theorem run_preserves_key (key : String) :
    ∀ (cmds : List (Command × Nat)) (st : ServiceState),
      (recordGet st.sessions key).isSome = true →
      (recordGet (run st cmds).sessions key).isSome = true := by
  intro cmds
  induction cmds with
  | nil => exact fun st h => h
  | cons p rest ih =>
      intro st h
      refine ih (step st p.1 p.2).1 ?_
      exact step_preserves_key key st p.1 p.2 h

theorem sessions_ne_nil_of_key {m : List (String × WhiteboardSession)} {key : String}
    (h : (recordGet m key).isSome = true) : m ≠ [] := by
  cases m with
  | nil => simp [recordGet] at h
  | cons p rest => exact List.cons_ne_nil p rest

theorem noDangling_iff_ideas (s : WhiteboardSession) :
    NoDangling s ↔ NoDanglingIdeas s.ideas := by
  unfold NoDangling NoDanglingIdeas
  constructor <;> intro h i hi c hc
  · obtain ⟨j, hj, hjid⟩ := h i hi c hc
    exact hjid ▸ List.mem_map_of_mem IdeaNode.id hj
  · obtain ⟨j, hj, hjid⟩ := List.mem_map.mp (h i hi c hc)
    exact ⟨j, hj, hjid⟩

theorem mem_map_id_of_any {l : List IdeaNode} {k : String}
    (h : l.any (fun i => i.id == k) = true) : k ∈ l.map IdeaNode.id := by
  obtain ⟨i, hfind, hid⟩ := any_imp_find? h
  exact hid ▸ List.mem_map_of_mem IdeaNode.id (List.mem_of_find?_eq_some hfind)

theorem nd_addConn {l : List IdeaNode} {src tgt : String}
    (hsrc : l.any (fun i => i.id == src) = true)
    (htgt : l.any (fun i => i.id == tgt) = true)
    (h : NoDanglingIdeas l) :
    NoDanglingIdeas
      (updateFirstIdea (updateFirstIdea l src (connAdd tgt)) tgt (connAdd src)) := by
  have hmap : (updateFirstIdea (updateFirstIdea l src (connAdd tgt)) tgt
      (connAdd src)).map IdeaNode.id = l.map IdeaNode.id := by
    rw [map_id_updateFirstIdea _ _ _ (connAdd_id src),
      map_id_updateFirstIdea _ _ _ (connAdd_id tgt)]
  have hsrcmem : src ∈ l.map IdeaNode.id := mem_map_id_of_any hsrc
  have htgtmem : tgt ∈ l.map IdeaNode.id := mem_map_id_of_any htgt
  intro i2 hi2 c hc
  rw [hmap]
  rcases mem_updateFirstIdea hi2 with hi1 | ⟨i1, hi1, -, rfl⟩
  · rcases mem_updateFirstIdea hi1 with hi0 | ⟨i0, hi0, -, rfl⟩
    · exact h i2 hi0 c hc
    · rcases (mem_connAdd_iff tgt c i0).mp hc with hc0 | rfl
      · exact h i0 hi0 c hc0
      · exact htgtmem
  · rcases (mem_connAdd_iff src c i1).mp hc with hc1 | rfl
    · rcases mem_updateFirstIdea hi1 with hi0 | ⟨i0, hi0, -, rfl⟩
      · exact h i1 hi0 c hc1
      · rcases (mem_connAdd_iff tgt c i0).mp hc1 with hc0 | rfl
        · exact h i0 hi0 c hc0
        · exact htgtmem
    · exact hsrcmem

theorem nd_removeConn {l : List IdeaNode} {src tgt : String}
    (h : NoDanglingIdeas l) :
    NoDanglingIdeas
      (updateFirstIdea (updateFirstIdea l src (connRemove tgt)) tgt (connRemove src)) := by
  have hmap : (updateFirstIdea (updateFirstIdea l src (connRemove tgt)) tgt
      (connRemove src)).map IdeaNode.id = l.map IdeaNode.id := by
    rw [map_id_updateFirstIdea _ _ _ (connRemove_id src),
      map_id_updateFirstIdea _ _ _ (connRemove_id tgt)]
  intro i2 hi2 c hc
  rw [hmap]
  rcases mem_updateFirstIdea hi2 with hi1 | ⟨i1, hi1, -, rfl⟩
  · rcases mem_updateFirstIdea hi1 with hi0 | ⟨i0, hi0, -, rfl⟩
    · exact h i2 hi0 c hc
    · exact h i0 hi0 c ((mem_connRemove_iff tgt c i0).mp hc).1
  · have hc1 := ((mem_connRemove_iff src c i1).mp hc).1
    rcases mem_updateFirstIdea hi1 with hi0 | ⟨i0, hi0, -, rfl⟩
    · exact h i1 hi0 c hc1
    · exact h i0 hi0 c ((mem_connRemove_iff tgt c i0).mp hc1).1

theorem nd_delete {l : List IdeaNode} {X : String} (h : NoDanglingIdeas l) :
    NoDanglingIdeas ((l.filter (fun i => i.id != X)).map
      (fun i => { i with connections := i.connections.filter (fun c => c != X) })) := by
  intro i' hi' c hc
  obtain ⟨i, hifil, rfl⟩ := List.mem_map.mp hi'
  simp only [List.mem_filter] at hc
  obtain ⟨hci, hcX⟩ := hc
  have hcne : c ≠ X := by simpa using hcX
  have hcl : c ∈ l.map IdeaNode.id := h i (List.mem_of_mem_filter hifil) c hci
  obtain ⟨j, hj, hjid⟩ := List.mem_map.mp hcl
  refine List.mem_map.mpr ⟨{ j with connections := j.connections.filter (fun c => c != X) },
    List.mem_map.mpr ⟨j, List.mem_filter.mpr ⟨hj, ?_⟩, rfl⟩, hjid⟩
  simpa using fun hjX : j.id = X => hcne (hjid ▸ hjX)

theorem nd_append_empty {l : List IdeaNode} {idea : IdeaNode}
    (hconn : idea.connections = []) (h : NoDanglingIdeas l) :
    NoDanglingIdeas (l ++ [idea]) := by
  intro i hi c hc
  rw [List.map_append]
  rcases List.mem_append.mp hi with hi | hi
  · exact List.mem_append_left _ (h i hi c hc)
  · rcases List.mem_singleton.mp hi with rfl
    rw [hconn] at hc
    cases hc

theorem nd_updateFirst_preserving {l : List IdeaNode} {k : String}
    {f : IdeaNode → IdeaNode}
    (hfid : ∀ i, (f i).id = i.id) (hfconn : ∀ i, (f i).connections = i.connections)
    (h : NoDanglingIdeas l) : NoDanglingIdeas (updateFirstIdea l k f) := by
  have hmap := map_id_updateFirstIdea l k f hfid
  intro i' hi' c hc
  rw [hmap]
  rcases mem_updateFirstIdea hi' with hi | ⟨i, hi, -, rfl⟩
  · exact h i' hi c hc
  · rw [hfconn] at hc
    exact h i hi c hc

theorem applyUpdates_id_none {i : IdeaNode} {u : UpdatePayload} (h : u.id = none) :
    (applyUpdates i u).id = i.id := by
  simp [applyUpdates, h]

theorem applyUpdates_conn_none {i : IdeaNode} {u : UpdatePayload}
    (h : u.connections = none) :
    (applyUpdates i u).connections = i.connections := by
  simp [applyUpdates, h]

theorem handleUserLeave_preserves_noDangling (st : ServiceState)
    (client : ConnectedClient) (hinv : ∀ p ∈ st.sessions, NoDangling p.2) :
    ∀ p ∈ (handleUserLeave st client).1.sessions, NoDangling p.2 := by
  cases hg : recordGet st.sessions client.sessionId with
  | none => simpa [handleUserLeave, hg] using hinv
  | some session =>
      simp only [handleUserLeave, hg]
      intro p hp
      rcases mem_recordSet hp with hpold | rfl
      · exact hinv p hpold
      · rw [noDangling_iff_ideas]
        exact (noDangling_iff_ideas session).mp
          (hinv (client.sessionId, session) (mem_of_recordGet hg))

theorem step_preserves_noDangling (st : ServiceState) (c : Command) (now : Nat)
    (hb : benignCmd c = true) (hinv : ∀ p ∈ st.sessions, NoDangling p.2) :
    ∀ p ∈ (step st c now).1.sessions, NoDangling p.2 := by
  cases c with
  | join ws sid user =>
      cases hg : recordGet st.sessions sid with
      | none =>
          simp only [step, handleJoin, hg]
          intro p hp
          rcases mem_recordSet hp with hpold | rfl
          · exact hinv p hpold
          · rw [noDangling_iff_ideas]
            intro i hi
            cases hi
      | some s =>
          simp only [step, handleJoin, hg]
          intro p hp
          rcases mem_recordSet hp with hpold | rfl
          · exact hinv p hpold
          · rw [noDangling_iff_ideas]
            exact (noDangling_iff_ideas s).mp (hinv (sid, s) (mem_of_recordGet hg))
  | leave sid uid =>
      cases hf : st.clients.find? (fun c => c.userId == uid && c.sessionId == sid) with
      | none => simpa [step, handleLeaveMessage, hf] using hinv
      | some client =>
          simp only [step, handleLeaveMessage, hf]
          exact handleUserLeave_preserves_noDangling st client hinv
  | cursorMove sid uid x y =>
      cases hg : recordGet st.sessions sid with
      | none => simpa [step, handleCursorMove, hg] using hinv
      | some s =>
          cases hu : recordGet s.users uid with
          | none => simpa [step, handleCursorMove, hg, hu] using hinv
          | some u =>
              simp only [step, handleCursorMove, hg, hu]
              intro p hp
              rcases mem_recordSet hp with hpold | rfl
              · exact hinv p hpold
              · rw [noDangling_iff_ideas]
                exact (noDangling_iff_ideas s).mp (hinv (sid, s) (mem_of_recordGet hg))
  | addIdea sid idea =>
      cases hg : recordGet st.sessions sid with
      | none => simpa [step, handleAddIdea, hg] using hinv
      | some s =>
          simp only [step, handleAddIdea, hg]
          intro p hp
          rcases mem_recordSet hp with hpold | rfl
          · exact hinv p hpold
          · rw [noDangling_iff_ideas]
            have hconn : idea.connections = [] := by
              simpa [benignCmd, List.isEmpty_iff] using hb
            exact nd_append_empty hconn
              ((noDangling_iff_ideas s).mp (hinv (sid, s) (mem_of_recordGet hg)))
  | deleteIdea sid iid =>
      cases hg : recordGet st.sessions sid with
      | none => simpa [step, handleDeleteIdea, hg] using hinv
      | some s =>
          simp only [step, handleDeleteIdea, hg]
          intro p hp
          rcases mem_recordSet hp with hpold | rfl
          · exact hinv p hpold
          · rw [noDangling_iff_ideas]
            exact nd_delete
              ((noDangling_iff_ideas s).mp (hinv (sid, s) (mem_of_recordGet hg)))
  | updateIdea sid iid u =>
      cases hg : recordGet st.sessions sid with
      | none => simpa [step, handleUpdateIdea, hg] using hinv
      | some s =>
          have hbu : u.id = none ∧ u.connections = none := by
            simpa [benignCmd, Option.isNone_iff_eq_none] using hb
          by_cases hany : s.ideas.any (fun i => i.id == iid) = true
          · simp only [step, handleUpdateIdea, hg, hany, if_pos]
            intro p hp
            rcases mem_recordSet hp with hpold | rfl
            · exact hinv p hpold
            · rw [noDangling_iff_ideas]
              exact nd_updateFirst_preserving
                (fun i => applyUpdates_id_none hbu.1)
                (fun i => applyUpdates_conn_none hbu.2)
                ((noDangling_iff_ideas s).mp (hinv (sid, s) (mem_of_recordGet hg)))
          · simpa [step, handleUpdateIdea, hg, hany] using hinv
  | addConnection sid src tgt =>
      cases hg : recordGet st.sessions sid with
      | none => simpa [step, handleAddConnection, hg] using hinv
      | some s =>
          by_cases hguard : (s.ideas.any (fun i => i.id == src) &&
              s.ideas.any (fun i => i.id == tgt)) = true
          · have hBsrc : s.ideas.any (fun i => i.id == src) = true :=
              (Bool.and_eq_true _ _).mp hguard |>.1
            have hBtgt : s.ideas.any (fun i => i.id == tgt) = true :=
              (Bool.and_eq_true _ _).mp hguard |>.2
            simp only [step, handleAddConnection, hg, hguard, if_pos]
            intro p hp
            rcases mem_recordSet hp with hpold | rfl
            · exact hinv p hpold
            · rw [noDangling_iff_ideas]
              exact nd_addConn hBsrc hBtgt
                ((noDangling_iff_ideas s).mp (hinv (sid, s) (mem_of_recordGet hg)))
          · simpa [step, handleAddConnection, hg, hguard] using hinv
  | removeConnection sid src tgt =>
      cases hg : recordGet st.sessions sid with
      | none => simpa [step, handleRemoveConnection, hg] using hinv
      | some s =>
          simp only [step, handleRemoveConnection, hg]
          intro p hp
          rcases mem_recordSet hp with hpold | rfl
          · exact hinv p hpold
          · rw [noDangling_iff_ideas]
            exact nd_removeConn
              ((noDangling_iff_ideas s).mp (hinv (sid, s) (mem_of_recordGet hg)))
  | vote sid iid uid =>
      cases hg : recordGet st.sessions sid with
      | none => simpa [step, handleVote, hg] using hinv
      | some s =>
          cases hf : s.ideas.find? (fun i => i.id == iid) with
          | none => simpa [step, handleVote, hg, hf] using hinv
          | some idea =>
              simp only [step, handleVote, hg, hf]
              intro p hp
              rcases mem_recordSet hp with hpold | rfl
              · exact hinv p hpold
              · rw [noDangling_iff_ideas]
                exact nd_updateFirst_preserving (fun i => rfl) (fun i => rfl)
                  ((noDangling_iff_ideas s).mp (hinv (sid, s) (mem_of_recordGet hg)))
  | close ws =>
      cases hf : st.clients.find? (fun c => c.ws == ws) with
      | none => simpa [step, handleClose, hf] using hinv
      | some client =>
          simp only [step, handleClose, hf]
          exact handleUserLeave_preserves_noDangling st client hinv

theorem run_preserves_noDangling :
    ∀ (cmds : List (Command × Nat)) (st : ServiceState),
      (∀ c ∈ cmds, benignCmd c.1 = true) →
      (∀ p ∈ st.sessions, NoDangling p.2) →
      ∀ p ∈ (run st cmds).sessions, NoDangling p.2 := by
  intro cmds
  induction cmds with
  | nil => exact fun st _ hinv => hinv
  | cons q rest ih =>
      intro st hb hinv
      exact ih (step st q.1 q.2).1
        (fun c hc => hb c (List.mem_cons_of_mem q hc))
        (step_preserves_noDangling st q.1 q.2 (hb q (List.mem_cons_self q rest)) hinv)

theorem mem_conn_addConn_map (src tgt : String) (i : IdeaNode) (x : String) :
    x ∈ ((fun j => if j.id = tgt then connAdd src j else j)
        ((fun j => if j.id = src then connAdd tgt j else j) i)).connections ↔
      x ∈ i.connections ∨ (i.id = src ∧ x = tgt) ∨ (i.id = tgt ∧ x = src) := by
  simp only []
  by_cases his : i.id = src
  · by_cases hit : i.id = tgt
    · rw [if_pos his, if_pos ((connAdd_id tgt i).trans hit), mem_connAdd_iff,
        mem_connAdd_iff]
      constructor
      · rintro ((hx | rfl) | rfl)
        · exact Or.inl hx
        · exact Or.inr (Or.inl ⟨his, rfl⟩)
        · exact Or.inr (Or.inr ⟨hit, rfl⟩)
      · rintro (hx | ⟨-, rfl⟩ | ⟨-, rfl⟩)
        · exact Or.inl (Or.inl hx)
        · exact Or.inl (Or.inr rfl)
        · exact Or.inr rfl
    · rw [if_pos his, if_neg (fun hh => hit ((connAdd_id tgt i) ▸ hh)), mem_connAdd_iff]
      constructor
      · rintro (hx | rfl)
        · exact Or.inl hx
        · exact Or.inr (Or.inl ⟨his, rfl⟩)
      · rintro (hx | ⟨-, rfl⟩ | ⟨hit2, rfl⟩)
        · exact Or.inl hx
        · exact Or.inr rfl
        · exact absurd hit2 hit
  · by_cases hit : i.id = tgt
    · rw [if_neg his, if_pos hit, mem_connAdd_iff]
      constructor
      · rintro (hx | rfl)
        · exact Or.inl hx
        · exact Or.inr (Or.inr ⟨hit, rfl⟩)
      · rintro (hx | ⟨his2, rfl⟩ | ⟨-, rfl⟩)
        · exact Or.inl hx
        · exact absurd his2 his
        · exact Or.inr rfl
    · rw [if_neg his, if_neg hit]
      constructor
      · exact fun hx => Or.inl hx
      · rintro (hx | ⟨his2, rfl⟩ | ⟨hit2, rfl⟩)
        · exact hx
        · exact absurd his2 his
        · exact absurd hit2 hit

theorem mem_conn_removeConn_map (src tgt : String) (i : IdeaNode) (x : String) :
    x ∈ ((fun j => if j.id = tgt then connRemove src j else j)
        ((fun j => if j.id = src then connRemove tgt j else j) i)).connections ↔
      x ∈ i.connections ∧ (i.id = src → x ≠ tgt) ∧ (i.id = tgt → x ≠ src) := by
  simp only []
  by_cases his : i.id = src
  · by_cases hit : i.id = tgt
    · rw [if_pos his, if_pos ((connRemove_id tgt i).trans hit), mem_connRemove_iff,
        mem_connRemove_iff]
      constructor
      · rintro ⟨⟨hx, hxt⟩, hxs⟩
        exact ⟨hx, fun _ => hxt, fun _ => hxs⟩
      · rintro ⟨hx, hxt, hxs⟩
        exact ⟨⟨hx, hxt his⟩, hxs hit⟩
    · rw [if_pos his, if_neg (fun hh => hit ((connRemove_id tgt i) ▸ hh)),
        mem_connRemove_iff]
      constructor
      · rintro ⟨hx, hxt⟩
        exact ⟨hx, fun _ => hxt, fun hh => absurd hh hit⟩
      · rintro ⟨hx, hxt, -⟩
        exact ⟨hx, hxt his⟩
  · by_cases hit : i.id = tgt
    · rw [if_neg his, if_pos hit, mem_connRemove_iff]
      constructor
      · rintro ⟨hx, hxs⟩
        exact ⟨hx, fun hh => absurd hh his, fun _ => hxs⟩
      · rintro ⟨hx, -, hxs⟩
        exact ⟨hx, hxs hit⟩
    · rw [if_neg his, if_neg hit]
      constructor
      · exact fun hx => ⟨hx, fun hh => absurd hh his, fun hh => absurd hh hit⟩
      · rintro ⟨hx, -, -⟩
        exact hx

theorem conn_map_id_addConn (src tgt : String) (i : IdeaNode) :
    ((fun j => if j.id = tgt then connAdd src j else j)
        ((fun j => if j.id = src then connAdd tgt j else j) i)).id = i.id := by
  simp only []
  by_cases his : i.id = src <;> by_cases hit : i.id = tgt <;>
    first
    | (rw [if_pos his, if_pos ((connAdd_id tgt i).trans hit), connAdd_id, connAdd_id])
    | (rw [if_pos his, if_neg (fun hh => hit ((connAdd_id tgt i) ▸ hh)), connAdd_id])
    | (rw [if_neg his, if_pos hit, connAdd_id])
    | (rw [if_neg his, if_neg hit])

theorem conn_map_id_removeConn (src tgt : String) (i : IdeaNode) :
    ((fun j => if j.id = tgt then connRemove src j else j)
        ((fun j => if j.id = src then connRemove tgt j else j) i)).id = i.id := by
  simp only []
  by_cases his : i.id = src <;> by_cases hit : i.id = tgt <;>
    first
    | (rw [if_pos his, if_pos ((connRemove_id tgt i).trans hit), connRemove_id,
        connRemove_id])
    | (rw [if_pos his, if_neg (fun hh => hit ((connRemove_id tgt i) ▸ hh)), connRemove_id])
    | (rw [if_neg his, if_pos hit, connRemove_id])
    | (rw [if_neg his, if_neg hit])

theorem symIdeas_addConn {l : List IdeaNode} {src tgt : String}
    (hnd : (l.map IdeaNode.id).Nodup) (hsym : SymIdeas l) :
    SymIdeas (updateFirstIdea (updateFirstIdea l src (connAdd tgt)) tgt (connAdd src)) := by
  have hnd1 : ((updateFirstIdea l src (connAdd tgt)).map IdeaNode.id).Nodup := by
    rw [map_id_updateFirstIdea _ _ _ (connAdd_id tgt)]
    exact hnd
  have e1 : updateFirstIdea l src (connAdd tgt) =
      l.map (fun i => if i.id = src then connAdd tgt i else i) :=
    updateFirstIdea_eq_map hnd
  have e2 : updateFirstIdea (updateFirstIdea l src (connAdd tgt)) tgt (connAdd src) =
      (updateFirstIdea l src (connAdd tgt)).map
        (fun i => if i.id = tgt then connAdd src i else i) :=
    updateFirstIdea_eq_map hnd1
  rw [e2, e1, List.map_map]
  intro a2 ha2 b2 hb2
  obtain ⟨a, ha, rfl⟩ := List.mem_map.mp ha2
  obtain ⟨b, hb, rfl⟩ := List.mem_map.mp hb2
  simp only [Function.comp_apply]
  rw [conn_map_id_addConn src tgt a, conn_map_id_addConn src tgt b,
    mem_conn_addConn_map, mem_conn_addConn_map]
  have hab := hsym a ha b hb
  tauto

theorem symIdeas_removeConn {l : List IdeaNode} {src tgt : String}
    (hnd : (l.map IdeaNode.id).Nodup) (hsym : SymIdeas l) :
    SymIdeas (updateFirstIdea (updateFirstIdea l src (connRemove tgt)) tgt
      (connRemove src)) := by
  have hnd1 : ((updateFirstIdea l src (connRemove tgt)).map IdeaNode.id).Nodup := by
    rw [map_id_updateFirstIdea _ _ _ (connRemove_id tgt)]
    exact hnd
  have e1 : updateFirstIdea l src (connRemove tgt) =
      l.map (fun i => if i.id = src then connRemove tgt i else i) :=
    updateFirstIdea_eq_map hnd
  have e2 : updateFirstIdea (updateFirstIdea l src (connRemove tgt)) tgt (connRemove src) =
      (updateFirstIdea l src (connRemove tgt)).map
        (fun i => if i.id = tgt then connRemove src i else i) :=
    updateFirstIdea_eq_map hnd1
  rw [e2, e1, List.map_map]
  intro a2 ha2 b2 hb2
  obtain ⟨a, ha, rfl⟩ := List.mem_map.mp ha2
  obtain ⟨b, hb, rfl⟩ := List.mem_map.mp hb2
  simp only [Function.comp_apply]
  rw [conn_map_id_removeConn src tgt a, conn_map_id_removeConn src tgt b,
    mem_conn_removeConn_map, mem_conn_removeConn_map]
  have hab := hsym a ha b hb
  tauto

theorem symIdeas_delete {l : List IdeaNode} {X : String} (hsym : SymIdeas l) :
    SymIdeas ((l.filter (fun i => i.id != X)).map
      (fun i => { i with connections := i.connections.filter (fun c => c != X) })) := by
  intro a2 ha2 b2 hb2
  obtain ⟨a, hafil, rfl⟩ := List.mem_map.mp ha2
  obtain ⟨b, hbfil, rfl⟩ := List.mem_map.mp hb2
  have ha := List.mem_of_mem_filter hafil
  have hb := List.mem_of_mem_filter hbfil
  have haX : a.id ≠ X := by simpa using (List.mem_filter.mp hafil).2
  have hbX : b.id ≠ X := by simpa using (List.mem_filter.mp hbfil).2
  have hab := hsym a ha b hb
  simp only [List.mem_filter, bne_iff_ne]
  constructor
  · rintro ⟨hmem, -⟩
    exact ⟨hab.mp hmem, haX⟩
  · rintro ⟨hmem, -⟩
    exact ⟨hab.mpr hmem, hbX⟩

theorem nodup_ids_delete {l : List IdeaNode} {X : String}
    (hnd : (l.map IdeaNode.id).Nodup) :
    (((l.filter (fun i => i.id != X)).map
      (fun i => { i with connections := i.connections.filter (fun c => c != X) })).map
        IdeaNode.id).Nodup := by
  have he : (((l.filter (fun i => i.id != X)).map
      (fun i => { i with connections := i.connections.filter (fun c => c != X) })).map
        IdeaNode.id) = (l.filter (fun i => i.id != X)).map IdeaNode.id := by
    rw [List.map_map]
    exact List.map_congr_left (fun i _ => rfl)
  rw [he]
  exact hnd.sublist (List.Sublist.map IdeaNode.id (List.filter_sublist l))

theorem step_preserves_sym (st : ServiceState) (c : Command) (now : Nat)
    (hc : isConnCmd c = true)
    (hinv : ∀ p ∈ st.sessions, IdsNodup p.2 ∧ SymIdeas p.2.ideas) :
    ∀ p ∈ (step st c now).1.sessions, IdsNodup p.2 ∧ SymIdeas p.2.ideas := by
  cases c with
  | addConnection sid src tgt =>
      cases hg : recordGet st.sessions sid with
      | none => simpa [step, handleAddConnection, hg] using hinv
      | some s =>
          by_cases hguard : (s.ideas.any (fun i => i.id == src) &&
              s.ideas.any (fun i => i.id == tgt)) = true
          · simp only [step, handleAddConnection, hg, hguard, if_pos]
            intro p hp
            rcases mem_recordSet hp with hpold | rfl
            · exact hinv p hpold
            · obtain ⟨hnd, hsym⟩ := hinv (sid, s) (mem_of_recordGet hg)
              refine ⟨?_, symIdeas_addConn hnd hsym⟩
              unfold IdsNodup
              rw [map_id_updateFirstIdea _ _ _ (connAdd_id src),
                map_id_updateFirstIdea _ _ _ (connAdd_id tgt)]
              exact hnd
          · simpa [step, handleAddConnection, hg, hguard] using hinv
  | removeConnection sid src tgt =>
      cases hg : recordGet st.sessions sid with
      | none => simpa [step, handleRemoveConnection, hg] using hinv
      | some s =>
          simp only [step, handleRemoveConnection, hg]
          intro p hp
          rcases mem_recordSet hp with hpold | rfl
          · exact hinv p hpold
          · obtain ⟨hnd, hsym⟩ := hinv (sid, s) (mem_of_recordGet hg)
            refine ⟨?_, symIdeas_removeConn hnd hsym⟩
            unfold IdsNodup
            rw [map_id_updateFirstIdea _ _ _ (connRemove_id src),
              map_id_updateFirstIdea _ _ _ (connRemove_id tgt)]
            exact hnd
  | deleteIdea sid iid =>
      cases hg : recordGet st.sessions sid with
      | none => simpa [step, handleDeleteIdea, hg] using hinv
      | some s =>
          simp only [step, handleDeleteIdea, hg]
          intro p hp
          rcases mem_recordSet hp with hpold | rfl
          · exact hinv p hpold
          · obtain ⟨hnd, hsym⟩ := hinv (sid, s) (mem_of_recordGet hg)
            exact ⟨nodup_ids_delete hnd, symIdeas_delete hsym⟩
  | join ws sid user => simp [isConnCmd] at hc
  | leave sid uid => simp [isConnCmd] at hc
  | cursorMove sid uid x y => simp [isConnCmd] at hc
  | addIdea sid idea => simp [isConnCmd] at hc
  | updateIdea sid iid u => simp [isConnCmd] at hc
  | vote sid iid uid => simp [isConnCmd] at hc
  | close ws => simp [isConnCmd] at hc

theorem run_preserves_sym :
    ∀ (cmds : List (Command × Nat)) (st : ServiceState),
      (∀ c ∈ cmds, isConnCmd c.1 = true) →
      (∀ p ∈ st.sessions, IdsNodup p.2 ∧ SymIdeas p.2.ideas) →
      ∀ p ∈ (run st cmds).sessions, IdsNodup p.2 ∧ SymIdeas p.2.ideas := by
  intro cmds
  induction cmds with
  | nil => exact fun st _ hinv => hinv
  | cons q rest ih =>
      intro st hc hinv
      exact ih (step st q.1 q.2).1
        (fun c hcm => hc c (List.mem_cons_of_mem q hcm))
        (step_preserves_sym st q.1 q.2 (hc q (List.mem_cons_self q rest)) hinv)

/-! ### Claim theorems -/

/-- C1: evaluating handleAddConnection at a self-connection on the demo
session shows the server-side handler is not a no-op: it pushes idea1's own
id into idea1's connections, because the source has no sourceId = targetId
guard (the guard exists only client-side, which the spec records as the
intent for the server too). -/
theorem c1_self_connection_adds_self_loop :
    (recordGet (handleAddConnection (initialState 0) "demo-session" "idea1" "idea1"
          2).1.sessions "demo-session").map
        (fun s => s.ideas.map (fun i => i.connections)) =
      some [["idea2", "idea1"], ["idea1"]] ∧
    (recordGet (handleAddConnection (initialState 0) "demo-session" "idea1" "idea1"
          2).1.sessions "demo-session").map
        (fun s => s.ideas.any (fun i => i.id == "idea1" && i.connections.contains "idea1")) =
      some true := by decide

/-- C3 counterexample: handleAddIdea appends the inbound idea exactly as
received, so an add-idea payload carrying connections = [idea1] yields an
appended idea whose connections list is not empty, contradicting the claim
that the appended idea's connections start empty regardless of the
payload. -/
theorem c3_counterexample :
    ((recordGet (handleAddIdea (initialState 0) "demo-session" sampleIdeaWithConnections
          1).1.sessions "demo-session").map
        (fun s => s.ideas.map (fun i => i.connections))) =
      some [["idea2"], ["idea1"], ["idea1"]] ∧
    ((recordGet (handleAddIdea (initialState 0) "demo-session" sampleIdeaWithConnections
          1).1.sessions "demo-session").map
        (fun s => s.ideas.getLast?.map (fun i => i.connections.isEmpty))) =
      some (some false) := by decide

/-- C3 (amended): for every add-idea command on an existing session, the
handler appends the inbound idea verbatim - its connections list is exactly
the payload's connections list (the client-side creation path always sends
an empty one, but the server does not enforce that) - refreshes lastActive,
and broadcasts idea-added to the whole session. -/
theorem add_idea_appends_payload_verbatim (st : ServiceState) (sid : String)
    (idea : IdeaNode) (now : Nat) (s : WhiteboardSession)
    (hget : recordGet st.sessions sid = some s) :
    handleAddIdea st sid idea now =
      ({ st with
          sessions := (recordSet st.sessions sid
            { s with
                ideas := s.ideas ++ [idea],
                lastActive := now }) },
       [Output.broadcast sid (EventPayload.ideaAdded sid idea) []]) := by
  simp [handleAddIdea, hget]

/-- Witness for the amended C3 theorem at the demo session. -/
theorem add_idea_appends_payload_verbatim_witness :
    recordGet (initialState 0).sessions "demo-session" = some (demoSession 0) ∧
    handleAddIdea (initialState 0) "demo-session" sampleIdeaEmpty 1 =
      ({ initialState 0 with
          sessions := (recordSet (initialState 0).sessions "demo-session"
            { demoSession 0 with
                ideas := (demoSession 0).ideas ++ [sampleIdeaEmpty],
                lastActive := 1 }) },
       [Output.broadcast "demo-session" (EventPayload.ideaAdded "demo-session" sampleIdeaEmpty) []]) :=
  ⟨rfl, add_idea_appends_payload_verbatim (initialState 0) "demo-session" sampleIdeaEmpty 1
    (demoSession 0) rfl⟩

/-- C4 counterexample: a delete-idea command for an idea id that does not
exist in the demo session still broadcasts an idea-deleted event and still
changes the session state (lastActive is refreshed), contradicting the
claim that every referential miss is a silent no-op with no broadcast. -/
theorem c4_counterexample :
    (handleDeleteIdea (initialState 0) "demo-session" "ghost" 3).2 =
      [Output.broadcast "demo-session" (EventPayload.ideaDeleted "demo-session" "ghost") []] ∧
    (handleDeleteIdea (initialState 0) "demo-session" "ghost" 3).1 ≠ initialState 0 ∧
    ((initialState 0).sessions.map (fun p => p.2.ideas.map (fun i => i.id))).all
      (fun ids => !(ids.contains "ghost")) = true := by decide

/-- C6 counterexample: processing add-connection(idea1, idea2) twice in a
row (first at time 1, then at time 2) does not yield the same state as
processing it once, because lastActive is refreshed on the second call;
and remove-connection(idea1, ghost), whose edge exists in no direction, is
not a no-op: it refreshes lastActive (and broadcasts), so the session
state changes. -/
theorem c6_counterexample :
    (handleAddConnection (handleAddConnection (initialState 0) "demo-session" "idea1"
          "idea2" 1).1 "demo-session" "idea1" "idea2" 2).1 ≠
      (handleAddConnection (initialState 0) "demo-session" "idea1" "idea2" 1).1 ∧
    (handleRemoveConnection (initialState 0) "demo-session" "idea1" "ghost" 4).1 ≠
      initialState 0 ∧
    ((recordGet (initialState 0).sessions "demo-session").map
        (fun s => s.ideas.all (fun i => !(i.connections.contains "ghost") &&
          !(i.id == "ghost")))) = some true := by decide

/-- C9: the create-session surface (HTTP binding modelled from the spec,
backed by WhiteboardService.createSession) answers 400 and leaves the state
alone when the name is missing, and otherwise stores a fresh empty session
and answers 201 with its summary (zero users, zero ideas). -/
theorem http_create_session_statuses (st : ServiceState) (freshId : String) (now : Nat) :
    httpCreateSession st none freshId now = (st, 400, none) ∧
    ∀ name, httpCreateSession st (some name) freshId now =
      ({ st with
          sessions := (recordSet st.sessions freshId
            { id := freshId, name := name, ideas := [], users := [],
              createdAt := now, lastActive := now }) },
       201,
       some { id := freshId, name := name, userCount := 0, ideaCount := 0,
              createdAt := now, lastActive := now }) := by
  refine ⟨rfl, fun name => ?_⟩
  simp [httpCreateSession, createSession, sessionSummary]

/-- C4 (amended): a referential miss never surfaces an error, and vote,
update-idea, add-connection and cursor-move with a nonexistent idea or
user id are silent no-ops (state unchanged, nothing broadcast); however
delete-idea and remove-connection broadcast their event and refresh the
session's lastActive even when the referenced ideas do not exist, leaving
ideas and users otherwise unchanged. -/
theorem referential_miss_behaviour (st : ServiceState) (sid : String)
    (s : WhiteboardSession) (ideaId uid src tgt : String) (x y : Int) (now : Nat)
    (u : UpdatePayload) (hget : recordGet st.sessions sid = some s) :
    ((∀ i ∈ s.ideas, i.id ≠ ideaId) →
      handleVote st sid ideaId uid now = (st, []) ∧
      handleUpdateIdea st sid ideaId u now = (st, [])) ∧
    (((∀ i ∈ s.ideas, i.id ≠ src) ∨ (∀ i ∈ s.ideas, i.id ≠ tgt)) →
      handleAddConnection st sid src tgt now = (st, [])) ∧
    ((∀ p ∈ s.users, p.1 ≠ uid) →
      handleCursorMove st sid uid x y now = (st, [])) ∧
    ((∀ i ∈ s.ideas, i.id ≠ ideaId ∧ ideaId ∉ i.connections) →
      handleDeleteIdea st sid ideaId now =
        ({ st with sessions := (recordSet st.sessions sid { s with lastActive := now }) },
         [Output.broadcast sid (EventPayload.ideaDeleted sid ideaId) []])) ∧
    ((∀ i ∈ s.ideas, i.id ≠ src ∧ i.id ≠ tgt) →
      handleRemoveConnection st sid src tgt now =
        ({ st with sessions := (recordSet st.sessions sid { s with lastActive := now }) },
         [Output.broadcast sid (EventPayload.connectionRemoved sid src tgt) []])) := by
  refine ⟨fun h => ⟨?_, ?_⟩, fun h => ?_, fun h => ?_, fun h => ?_, fun h => ?_⟩
  · have hfind : s.ideas.find? (fun i => i.id == ideaId) = none := find?_id_none h
    simp [handleVote, hget, hfind]
  · have hany : s.ideas.any (fun i => i.id == ideaId) = false := any_id_false h
    simp [handleUpdateIdea, hget, hany]
  · rcases h with h | h
    · have hany : s.ideas.any (fun i => i.id == src) = false := any_id_false h
      simp [handleAddConnection, hget, hany]
    · have hany : s.ideas.any (fun i => i.id == tgt) = false := any_id_false h
      simp [handleAddConnection, hget, hany]
  · have huser : recordGet s.users uid = none := recordGet_eq_none_iff.mpr h
    simp [handleCursorMove, hget, huser]
  · have h1 : s.ideas.filter (fun i => i.id != ideaId) = s.ideas := by
      rw [List.filter_eq_self]
      intro i hi
      simpa using (h i hi).1
    have h2 : s.ideas.map
        (fun i => { i with connections := i.connections.filter (fun c => c != ideaId) }) =
        s.ideas := by
      have hcongr : ∀ i ∈ s.ideas,
          ({ i with connections := i.connections.filter (fun c => c != ideaId) } :
            IdeaNode) = i := by
        intro i hi
        have : i.connections.filter (fun c => c != ideaId) = i.connections := by
          rw [List.filter_eq_self]
          intro c hc
          have hne : c ≠ ideaId := fun hcc => (h i hi).2 (hcc ▸ hc)
          simpa using hne
        rw [this]
      rw [List.map_congr_left hcongr]
      simp
    simp [handleDeleteIdea, hget, h1, h2]
  · have h1 : updateFirstIdea s.ideas src (connRemove tgt) = s.ideas := by
      refine updateFirstIdea_eq_self (fun i hi hid => ?_)
      exact absurd hid (h i hi).1
    have h2 : updateFirstIdea s.ideas tgt (connRemove src) = s.ideas := by
      refine updateFirstIdea_eq_self (fun i hi hid => ?_)
      exact absurd hid (h i hi).2
    simp [handleRemoveConnection, hget, h1, h2]

/-- Witness for the amended C4 theorem: concrete silent no-ops on the demo
session for a nonexistent idea id and user id. -/
theorem referential_miss_behaviour_witness :
    (∀ i ∈ (demoSession 0).ideas, i.id ≠ "ghost") ∧
    (∀ p ∈ (demoSession 0).users, p.1 ≠ "u9") ∧
    handleVote (initialState 0) "demo-session" "ghost" "u9" 3 = (initialState 0, []) ∧
    handleUpdateIdea (initialState 0) "demo-session" "ghost" emptyUpdate 3 =
      (initialState 0, []) ∧
    handleAddConnection (initialState 0) "demo-session" "ghost" "idea1" 3 =
      (initialState 0, []) ∧
    handleCursorMove (initialState 0) "demo-session" "u9" 1 2 3 = (initialState 0, []) :=
  ⟨by decide, by decide,
   ((referential_miss_behaviour (initialState 0) "demo-session" (demoSession 0)
      "ghost" "u9" "ghost" "idea1" 1 2 3 emptyUpdate (by decide)).1 (by decide)).1,
   ((referential_miss_behaviour (initialState 0) "demo-session" (demoSession 0)
      "ghost" "u9" "ghost" "idea1" 1 2 3 emptyUpdate (by decide)).1 (by decide)).2,
   (referential_miss_behaviour (initialState 0) "demo-session" (demoSession 0)
      "ghost" "u9" "ghost" "idea1" 1 2 3 emptyUpdate (by decide)).2.1 (Or.inl (by decide)),
   (referential_miss_behaviour (initialState 0) "demo-session" (demoSession 0)
      "ghost" "u9" "ghost" "idea1" 1 2 3 emptyUpdate (by decide)).2.2.1 (by decide)⟩

/-- C6 (amended): for distinct existing ideas, processing add-connection
twice at the same instant yields exactly the state of processing it once;
and remove-connection on an edge absent in both directions leaves ideas
and users unchanged, but still refreshes the session's lastActive (and
still broadcasts connection-removed), so it is a no-op only up to the
lastActive timestamp. -/
theorem connection_idempotence (st : ServiceState) (sid src tgt : String) (now : Nat)
    (s : WhiteboardSession) (hget : recordGet st.sessions sid = some s)
    (hne : src ≠ tgt)
    (hsrc : s.ideas.any (fun i => i.id == src) = true)
    (htgt : s.ideas.any (fun i => i.id == tgt) = true) :
    (handleAddConnection (handleAddConnection st sid src tgt now).1 sid src tgt now).1 =
      (handleAddConnection st sid src tgt now).1 ∧
    ((∀ i ∈ s.ideas, (i.id = src → tgt ∉ i.connections) ∧
        (i.id = tgt → src ∉ i.connections)) →
      handleRemoveConnection st sid src tgt now =
        ({ st with sessions := (recordSet st.sessions sid { s with lastActive := now }) },
         [Output.broadcast sid (EventPayload.connectionRemoved sid src tgt) []])) := by
  constructor
  · have hcall1 : (handleAddConnection st sid src tgt now).1 =
        { st with
            sessions := (recordSet st.sessions sid
              { s with
                  ideas := updateFirstIdea (updateFirstIdea s.ideas src (connAdd tgt))
                    tgt (connAdd src),
                  lastActive := now }) } := by
      simp [handleAddConnection, hget, hsrc, htgt]
    have hmap :
        (updateFirstIdea (updateFirstIdea s.ideas src (connAdd tgt)) tgt
          (connAdd src)).map IdeaNode.id = s.ideas.map IdeaNode.id := by
      rw [map_id_updateFirstIdea _ _ _ (connAdd_id src),
        map_id_updateFirstIdea _ _ _ (connAdd_id tgt)]
    have hsrc2 : (updateFirstIdea (updateFirstIdea s.ideas src (connAdd tgt)) tgt
        (connAdd src)).any (fun i => i.id == src) = true := by
      rw [any_id_of_map_id_eq hmap]
      exact hsrc
    have htgt2 : (updateFirstIdea (updateFirstIdea s.ideas src (connAdd tgt)) tgt
        (connAdd src)).any (fun i => i.id == tgt) = true := by
      rw [any_id_of_map_id_eq hmap]
      exact htgt
    rw [hcall1]
    simp [handleAddConnection, recordGet_recordSet_self, hsrc2, htgt2,
      addConn_ideas_idem s.ideas src tgt hne hsrc htgt, recordSet_recordSet_self]
  · intro h
    have h1 : updateFirstIdea s.ideas src (connRemove tgt) = s.ideas := by
      refine updateFirstIdea_eq_self (fun i hi hid => ?_)
      have : tgt ∉ i.connections := (h i hi).1 hid
      unfold connRemove
      have hconn : i.connections.filter (fun c => c != tgt) = i.connections := by
        rw [List.filter_eq_self]
        intro c hc
        have hcne : c ≠ tgt := fun hcc => this (hcc ▸ hc)
        simpa using hcne
      rw [hconn]
    have h2 : updateFirstIdea s.ideas tgt (connRemove src) = s.ideas := by
      refine updateFirstIdea_eq_self (fun i hi hid => ?_)
      have : src ∉ i.connections := (h i hi).2 hid
      unfold connRemove
      have hconn : i.connections.filter (fun c => c != src) = i.connections := by
        rw [List.filter_eq_self]
        intro c hc
        have hcne : c ≠ src := fun hcc => this (hcc ▸ hc)
        simpa using hcne
      rw [hconn]
    simp [handleRemoveConnection, hget, h1, h2]

/-- Witness for the amended C6 theorem on a session holding two
unconnected ideas a and b. -/
theorem connection_idempotence_witness :
    recordGet stateTwoUnconnected.sessions "s2" = some sessionTwoUnconnected ∧
    "a" ≠ "b" ∧
    sessionTwoUnconnected.ideas.any (fun i => i.id == "a") = true ∧
    sessionTwoUnconnected.ideas.any (fun i => i.id == "b") = true ∧
    (∀ i ∈ sessionTwoUnconnected.ideas,
      (i.id = "a" → "b" ∉ i.connections) ∧ (i.id = "b" → "a" ∉ i.connections)) ∧
    (handleAddConnection (handleAddConnection stateTwoUnconnected "s2" "a" "b" 5).1
        "s2" "a" "b" 5).1 =
      (handleAddConnection stateTwoUnconnected "s2" "a" "b" 5).1 ∧
    handleRemoveConnection stateTwoUnconnected "s2" "a" "b" 5 =
      ({ stateTwoUnconnected with
          sessions := (recordSet stateTwoUnconnected.sessions "s2"
            { sessionTwoUnconnected with lastActive := 5 }) },
       [Output.broadcast "s2" (EventPayload.connectionRemoved "s2" "a" "b") []]) :=
  ⟨by decide, by decide, by decide, by decide, by decide,
   (connection_idempotence stateTwoUnconnected "s2" "a" "b" 5 sessionTwoUnconnected
      (by decide) (by decide) (by decide) (by decide)).1,
   (connection_idempotence stateTwoUnconnected "s2" "a" "b" 5 sessionTwoUnconnected
      (by decide) (by decide) (by decide) (by decide)).2 (by decide)⟩

/-- C7: a cursor-move broadcast never reaches a connection registered to
the user id that moved (the handler passes that id as the exclusion list),
and the user-joined broadcast emitted by a join never reaches a connection
registered to the joining user's id - even though the joiner's connection
has already been pushed into the clients array when the broadcast goes
out; the joiner gets only the direct session-state send. -/
theorem broadcast_excludes_sender (st : ServiceState) (sid uid : String) (x y : Int)
    (now : Nat) (ws : Nat) (user : WhiteboardUser) :
    (∀ sid2 ev excl,
      Output.broadcast sid2 ev excl ∈ (handleCursorMove st sid uid x y now).2 →
      ∀ c ∈ broadcastRecipients (handleCursorMove st sid uid x y now).1.clients sid2 excl,
        c.userId ≠ uid) ∧
    (∀ sid2 ev excl,
      Output.broadcast sid2 ev excl ∈ (handleJoin st ws sid user now).2 →
      ∀ c ∈ broadcastRecipients (handleJoin st ws sid user now).1.clients sid2 excl,
        c.userId ≠ user.id) := by
  constructor
  · intro sid2 ev excl hmem c hc
    cases hg : recordGet st.sessions sid with
    | none => simp [handleCursorMove, hg] at hmem
    | some s =>
        cases hu : recordGet s.users uid with
        | none => simp [handleCursorMove, hg, hu] at hmem
        | some u =>
            simp only [handleCursorMove, hg, hu, List.mem_singleton,
              Output.broadcast.injEq] at hmem
            obtain ⟨-, -, hexcl⟩ := hmem
            have hnotin := (mem_broadcastRecipients hc).2
            rw [hexcl] at hnotin
            simpa using hnotin
  · intro sid2 ev excl hmem c hc
    simp only [handleJoin, List.mem_cons, List.mem_singleton] at hmem
    rcases hmem with hmem | hmem
    · exact absurd hmem (by simp)
    · rcases hmem with hmem | hmem
      · simp only [Output.broadcast.injEq] at hmem
        obtain ⟨-, -, hexcl⟩ := hmem
        have hnotin := (mem_broadcastRecipients hc).2
        rw [hexcl] at hnotin
        simpa using hnotin
      · simp at hmem

/-- Witness for C7: on stateWithClients, the cursor-move broadcast of u1
reaches u2's connection but no connection of u1, and the user-joined
broadcast for joining user u3 reaches u1's connection but no connection of
u3. -/
theorem broadcast_excludes_sender_witness :
    Output.broadcast "s1" (EventPayload.cursorMoved "s1" "u1" 7 8) ["u1"] ∈
      (handleCursorMove stateWithClients "s1" "u1" 7 8 9).2 ∧
    ({ ws := 2, userId := "u2", sessionId := "s1" } : ConnectedClient) ∈
      broadcastRecipients (handleCursorMove stateWithClients "s1" "u1" 7 8 9).1.clients
        "s1" ["u1"] ∧
    ({ ws := 2, userId := "u2", sessionId := "s1" } : ConnectedClient).userId ≠ "u1" ∧
    Output.broadcast "s1"
        (EventPayload.userJoined "s1" { userU3 with isActive := true, lastActive := 9 })
        ["u3"] ∈ (handleJoin stateWithClients 5 "s1" userU3 9).2 ∧
    ({ ws := 1, userId := "u1", sessionId := "s1" } : ConnectedClient) ∈
      broadcastRecipients (handleJoin stateWithClients 5 "s1" userU3 9).1.clients
        "s1" ["u3"] ∧
    ({ ws := 1, userId := "u1", sessionId := "s1" } : ConnectedClient).userId ≠ "u3" :=
  ⟨by decide, by decide,
   (broadcast_excludes_sender stateWithClients "s1" "u1" 7 8 9 5 userU3).1 "s1"
     (EventPayload.cursorMoved "s1" "u1" 7 8)
     ["u1"] (by decide) { ws := 2, userId := "u2", sessionId := "s1" } (by decide),
   by decide, by decide,
   (broadcast_excludes_sender stateWithClients "s1" "u1" 7 8 9 5 userU3).2 "s1"
     (EventPayload.userJoined "s1" { userU3 with isActive := true, lastActive := 9 })
     ["u3"] (by decide) { ws := 1, userId := "u1", sessionId := "s1" } (by decide)⟩

/-- C8: session summaries are computed from the live session at read time
(every stored session's summary appears in getSessions with the current
map sizes), and immediately after add-idea, delete-idea, join or leave on
an existing session the summary for that session reports exactly the
post-mutation idea and user counts. -/
theorem directory_reflects_live_counts (st : ServiceState) (sid : String)
    (s : WhiteboardSession) (idea : IdeaNode) (ideaId : String) (ws : Nat)
    (user : WhiteboardUser) (uid : String) (now : Nat)
    (hget : recordGet st.sessions sid = some s) :
    (∀ sid2 s2, recordGet st.sessions sid2 = some s2 →
      sessionSummary s2 ∈ getSessions st ∧
      (sessionSummary s2).userCount = s2.users.length ∧
      (sessionSummary s2).ideaCount = s2.ideas.length) ∧
    (∀ s', recordGet (handleAddIdea st sid idea now).1.sessions sid = some s' →
      sessionSummary s' ∈ getSessions (handleAddIdea st sid idea now).1 ∧
      (sessionSummary s').ideaCount = s.ideas.length + 1 ∧
      (sessionSummary s').userCount = s.users.length) ∧
    (∀ s', recordGet (handleDeleteIdea st sid ideaId now).1.sessions sid = some s' →
      sessionSummary s' ∈ getSessions (handleDeleteIdea st sid ideaId now).1 ∧
      (sessionSummary s').ideaCount = (s.ideas.filter (fun i => i.id != ideaId)).length ∧
      (sessionSummary s').userCount = s.users.length) ∧
    (∀ s', recordGet (handleJoin st ws sid user now).1.sessions sid = some s' →
      sessionSummary s' ∈ getSessions (handleJoin st ws sid user now).1 ∧
      (sessionSummary s').ideaCount = s.ideas.length ∧
      (sessionSummary s').userCount =
        (if (recordGet s.users user.id).isSome then s.users.length
         else s.users.length + 1)) ∧
    (∀ s', recordGet
        (handleUserLeave st { ws := ws, userId := uid, sessionId := sid }).1.sessions sid =
          some s' →
      sessionSummary s' ∈
        getSessions (handleUserLeave st { ws := ws, userId := uid, sessionId := sid }).1 ∧
      (sessionSummary s').ideaCount = s.ideas.length ∧
      (sessionSummary s').userCount =
        (if (recordGet s.users uid).isSome then s.users.length - 1
         else s.users.length)) := by
  refine ⟨?_, ?_, ?_, ?_, ?_⟩
  · intro sid2 s2 h2
    exact ⟨sessionSummary_mem_getSessions h2, by simp [sessionSummary], rfl⟩
  · have hpost : (handleAddIdea st sid idea now).1 =
        { st with
            sessions := (recordSet st.sessions sid
              { s with
                  ideas := s.ideas ++ [idea],
                  lastActive := now }) } := by
      simp [handleAddIdea, hget]
    intro s' h'
    have hcopy := h'
    rw [hpost, recordGet_recordSet_self] at h'
    obtain rfl : _ = s' := Option.some.inj h'
    exact ⟨sessionSummary_mem_getSessions hcopy, by simp [sessionSummary],
      by simp [sessionSummary]⟩
  · have hpost : (handleDeleteIdea st sid ideaId now).1 =
        { st with
            sessions := (recordSet st.sessions sid
              { s with
                  ideas := (s.ideas.filter (fun i => i.id != ideaId)).map
                    (fun i => { i with
                      connections := i.connections.filter (fun c => c != ideaId) }),
                  lastActive := now }) } := by
      simp [handleDeleteIdea, hget]
    intro s' h'
    have hcopy := h'
    rw [hpost, recordGet_recordSet_self] at h'
    obtain rfl : _ = s' := Option.some.inj h'
    exact ⟨sessionSummary_mem_getSessions hcopy, by simp [sessionSummary],
      by simp [sessionSummary]⟩
  · have hpost : (handleJoin st ws sid user now).1 =
        { sessions := (recordSet st.sessions sid
            { s with
                users := recordSet s.users user.id
                  { user with isActive := true, lastActive := now } }),
          clients := st.clients ++ [{ ws := ws, userId := user.id, sessionId := sid }] } := by
      simp [handleJoin, hget]
    intro s' h'
    have hcopy := h'
    rw [hpost, recordGet_recordSet_self] at h'
    obtain rfl : _ = s' := Option.some.inj h'
    exact ⟨sessionSummary_mem_getSessions hcopy, by simp [sessionSummary],
      by simp [sessionSummary, length_recordSet]⟩
  · have hpost : (handleUserLeave st { ws := ws, userId := uid, sessionId := sid }).1 =
        { st with
            sessions := (recordSet st.sessions sid
              { s with users := recordDelete s.users uid }) } := by
      simp [handleUserLeave, hget]
    intro s' h'
    have hcopy := h'
    rw [hpost, recordGet_recordSet_self] at h'
    obtain rfl : _ = s' := Option.some.inj h'
    exact ⟨sessionSummary_mem_getSessions hcopy, by simp [sessionSummary],
      by simp [sessionSummary, length_recordDelete]⟩

/-- Witness for C8 on stateWithClients: concrete post-mutation counts for
add-idea (one idea appended), join of a new user and
leave of a present user. -/
theorem directory_reflects_live_counts_witness :
    recordGet stateWithClients.sessions "s1" = some sessionS1 ∧
    (sessionSummary { sessionS1 with
        ideas := sessionS1.ideas ++ [sampleIdeaEmpty],
        lastActive := 9 }).ideaCount = sessionS1.ideas.length + 1 ∧
    (sessionSummary { sessionS1 with
        users := recordSet sessionS1.users "u3"
          { userU3 with isActive := true, lastActive := 9 } }).userCount =
      (if (recordGet sessionS1.users "u3").isSome then sessionS1.users.length
       else sessionS1.users.length + 1) ∧
    (sessionSummary { sessionS1 with users := recordDelete sessionS1.users "u2" }).userCount =
      (if (recordGet sessionS1.users "u2").isSome then sessionS1.users.length - 1
       else sessionS1.users.length) :=
  ⟨by decide,
   ((directory_reflects_live_counts stateWithClients "s1" sessionS1 sampleIdeaEmpty "x" 7
      userU3 "u2" 9 (by decide)).2.1
      { sessionS1 with ideas := sessionS1.ideas ++ [sampleIdeaEmpty], lastActive := 9 }
      (by decide)).2.1,
   ((directory_reflects_live_counts stateWithClients "s1" sessionS1 sampleIdeaEmpty "x" 7
      userU3 "u2" 9 (by decide)).2.2.2.1
      { sessionS1 with
          users := recordSet sessionS1.users "u3"
            { userU3 with isActive := true, lastActive := 9 } }
      (by decide)).2.2,
   ((directory_reflects_live_counts stateWithClients "s1" sessionS1 sampleIdeaEmpty "x" 7
      userU3 "u2" 9 (by decide)).2.2.2.2
      { sessionS1 with users := recordDelete sessionS1.users "u2" }
      (by decide)).2.2⟩

/-- C10: the constructor seeds the store with the demo session: exactly the
two ideas idea1 and idea2, mutually connected, with an empty users map, so
getSession of demo-session is defined at construction and stays defined
after every command sequence, and the sessions-list pushed to a newly
connected client is never empty. -/
theorem demo_session_seeded (n : Nat) :
    recordGet (initialState n).sessions "demo-session" = some (demoSession n) ∧
    (demoSession n).ideas.map IdeaNode.id = ["idea1", "idea2"] ∧
    (demoSession n).ideas.map IdeaNode.connections = [["idea2"], ["idea1"]] ∧
    (demoSession n).users = [] ∧
    (∀ cmds, (getSession (run (initialState n) cmds) "demo-session").isSome = true) ∧
    (∀ cmds, connectSessionsList (run (initialState n) cmds) ≠ []) := by
  have hinit : (recordGet (initialState n).sessions "demo-session").isSome = true := by
    simp [initialState, recordGet]
  refine ⟨by simp [initialState, recordGet], rfl, rfl, rfl, ?_, ?_⟩
  · intro cmds
    exact run_preserves_key "demo-session" cmds (initialState n) hinit
  · intro cmds
    have h := run_preserves_key "demo-session" cmds (initialState n) hinit
    have hne := sessions_ne_nil_of_key h
    simp only [connectSessionsList]
    intro hmap
    exact hne (List.map_eq_nil_iff.mp hmap)

/-- C2 counterexample: the no-dangling invariant does not survive an
arbitrary command sequence: a single add-idea whose payload carries
connections = [ghost] is appended verbatim by the handler, leaving a
connection entry that names no idea in the session, although the starting
state satisfied the invariant. -/
theorem c2_counterexample :
    (∀ p ∈ (initialState 0).sessions, NoDangling p.2) ∧
    ¬ (∀ p ∈ (run (initialState 0)
        [(Command.addIdea "demo-session" sampleIdeaDangling, 1)]).sessions,
        NoDangling p.2) := by
  exact ⟨by decide, by decide⟩

/-- C2 (amended): in every state reachable by commands whose add-idea
payloads carry an empty connections list and whose update-idea payloads
rewrite neither id nor connections (the client-side paths always satisfy
this), every connection entry of every idea refers to an idea still
present in its session; and one delete-idea step removes the deleted id
both from the idea list and from every remaining idea's connections. -/
theorem no_dangling_invariant (st : ServiceState) (cmds : List (Command × Nat))
    (hinv : ∀ p ∈ st.sessions, NoDangling p.2)
    (hbenign : ∀ c ∈ cmds, benignCmd c.1 = true) :
    (∀ p ∈ (run st cmds).sessions, NoDangling p.2) ∧
    (∀ (st2 : ServiceState) (sid ideaId : String) (now : Nat) (s' : WhiteboardSession),
      recordGet (handleDeleteIdea st2 sid ideaId now).1.sessions sid = some s' →
      ∀ i ∈ s'.ideas, i.id ≠ ideaId ∧ ideaId ∉ i.connections) := by
  refine ⟨run_preserves_noDangling cmds st hbenign hinv, ?_⟩
  intro st2 sid ideaId now s' h' i hi
  cases hg : recordGet st2.sessions sid with
  | none =>
      rw [show (handleDeleteIdea st2 sid ideaId now).1 = st2 from by
        simp [handleDeleteIdea, hg]] at h'
      rw [hg] at h'
      cases h'
  | some s =>
      have hpost : (handleDeleteIdea st2 sid ideaId now).1 =
          { st2 with
              sessions := (recordSet st2.sessions sid
                { s with
                    ideas := (s.ideas.filter (fun i => i.id != ideaId)).map
                      (fun i => { i with
                        connections := i.connections.filter (fun c => c != ideaId) }),
                    lastActive := now }) } := by
        simp [handleDeleteIdea, hg]
      rw [hpost, recordGet_recordSet_self] at h'
      obtain rfl : _ = s' := Option.some.inj h'
      simp only at hi
      obtain ⟨j, hjfil, rfl⟩ := List.mem_map.mp hi
      constructor
      · have := (List.mem_filter.mp hjfil).2
        simpa using this
      · intro hmem
        simp only [List.mem_filter] at hmem
        have := hmem.2
        simp at this

/-- Witness for the amended C2 theorem: a benign command sequence on the
demo session keeps the invariant, and a concrete delete-idea step leaves
no reference to the deleted id. -/
theorem no_dangling_invariant_witness :
    (∀ p ∈ (initialState 0).sessions, NoDangling p.2) ∧
    (∀ c ∈ [(Command.addIdea "demo-session" sampleIdeaEmpty, 1),
            (Command.addConnection "demo-session" "idea1" "i7", 2),
            (Command.deleteIdea "demo-session" "idea2", 3)], benignCmd c.1 = true) ∧
    (∀ p ∈ (run (initialState 0)
        [(Command.addIdea "demo-session" sampleIdeaEmpty, 1),
         (Command.addConnection "demo-session" "idea1" "i7", 2),
         (Command.deleteIdea "demo-session" "idea2", 3)]).sessions, NoDangling p.2) ∧
    (∀ i ∈ ({ demoSession 0 with
        ideas := ((demoSession 0).ideas.filter (fun i => i.id != "idea1")).map
          (fun i => { i with
            connections := i.connections.filter (fun c => c != "idea1") }),
        lastActive := 4 } : WhiteboardSession).ideas,
      i.id ≠ "idea1" ∧ "idea1" ∉ i.connections) :=
  ⟨by decide, by decide,
   (no_dangling_invariant (initialState 0)
      [(Command.addIdea "demo-session" sampleIdeaEmpty, 1),
       (Command.addConnection "demo-session" "idea1" "i7", 2),
       (Command.deleteIdea "demo-session" "idea2", 3)] (by decide) (by decide)).1,
   (no_dangling_invariant (initialState 0) [] (by decide) (by decide)).2
     (initialState 0) "demo-session" "idea1" 4
     { demoSession 0 with
         ideas := ((demoSession 0).ideas.filter (fun i => i.id != "idea1")).map
           (fun i => { i with
             connections := i.connections.filter (fun c => c != "idea1") }),
         lastActive := 4 }
     (by decide)⟩

/-- C5: starting from a state whose sessions have pairwise-distinct idea
ids (the data model guarantee) and symmetric connection lists, any
sequence of add-connection, remove-connection and delete-idea commands
keeps every session's connection lists symmetric: A lists B's id exactly
when B lists A's id. -/
theorem connection_symmetry (st : ServiceState) (cmds : List (Command × Nat))
    (hinv : ∀ p ∈ st.sessions, IdsNodup p.2 ∧ SymIdeas p.2.ideas)
    (hcmds : ∀ c ∈ cmds, isConnCmd c.1 = true) :
    ∀ p ∈ (run st cmds).sessions, ∀ a ∈ p.2.ideas, ∀ b ∈ p.2.ideas,
      (b.id ∈ a.connections ↔ a.id ∈ b.connections) :=
  fun p hp => (run_preserves_sym cmds st hcmds hinv p hp).2

/-- Witness for C5: the demo session stays symmetric through a concrete
add-connection, remove-connection, delete-idea sequence. -/
theorem connection_symmetry_witness :
    (∀ p ∈ (initialState 0).sessions, IdsNodup p.2 ∧ SymIdeas p.2.ideas) ∧
    (∀ c ∈ [(Command.addConnection "demo-session" "idea1" "idea2", 1),
            (Command.removeConnection "demo-session" "idea2" "idea1", 2),
            (Command.deleteIdea "demo-session" "idea1", 3)], isConnCmd c.1 = true) ∧
    (∀ p ∈ (run (initialState 0)
        [(Command.addConnection "demo-session" "idea1" "idea2", 1),
         (Command.removeConnection "demo-session" "idea2" "idea1", 2),
         (Command.deleteIdea "demo-session" "idea1", 3)]).sessions,
      ∀ a ∈ p.2.ideas, ∀ b ∈ p.2.ideas,
        (b.id ∈ a.connections ↔ a.id ∈ b.connections)) :=
  ⟨by decide, by decide,
   connection_symmetry (initialState 0)
     [(Command.addConnection "demo-session" "idea1" "idea2", 1),
      (Command.removeConnection "demo-session" "idea2" "idea1", 2),
      (Command.deleteIdea "demo-session" "idea1", 3)] (by decide) (by decide)⟩

end Whiteboard
